import Mathlib

/-!
Verification development for the vessel-reconstruction analysis pipeline
(`analysis_pipeline.py`, `utils/metrics_utils.py`, `utils/plot_utils.py`,
`utils/geometric_utils.py`).

Conventions of the shallow embedding:
* Floating-point numbers are modelled as real numbers (`ℝ`); voxel indices
  are integer triples (`ℤ × ℤ × ℤ`); boolean volume masks are finite sets
  of voxels (`Finset (ℤ × ℤ × ℤ)`).
* Calls into external libraries (scipy morphology/EDT, skimage
  skeletonize/marching-cubes, open3d distance queries) are modelled as
  components of an `ExtLib` record of uninterpreted functions; the repository
  logic that wires them together is embedded exactly.
* Python `float("nan")` / `inf` values stored in the metrics dictionary are
  modelled by the inductive `PyVal` (`nan`, `inf`, or a finite value); a
  Python function that can raise is modelled by `Except String` (the string
  is the exception message), and a function that can return `None` by
  `Option`.
-/

/-- A 3-vector of reals (a row of a numpy `(N, 3)` float array). -/
structure RVec3 where
  x : ℝ
  y : ℝ
  z : ℝ

namespace RVec3

def add (a b : RVec3) : RVec3 := ⟨a.x + b.x, a.y + b.y, a.z + b.z⟩

def sub (a b : RVec3) : RVec3 := ⟨a.x - b.x, a.y - b.y, a.z - b.z⟩

def smul (c : ℝ) (a : RVec3) : RVec3 := ⟨c * a.x, c * a.y, c * a.z⟩

def dot (a b : RVec3) : ℝ := a.x * b.x + a.y * b.y + a.z * b.z

def cross (a b : RVec3) : RVec3 :=
  ⟨a.y * b.z - a.z * b.y, a.z * b.x - a.x * b.z, a.x * b.y - a.y * b.x⟩

/-- `np.linalg.norm` of a 3-vector. -/
noncomputable def norm (a : RVec3) : ℝ := Real.sqrt (a.x ^ 2 + a.y ^ 2 + a.z ^ 2)

end RVec3

/-- Euclidean distance between two points (`np.linalg.norm(a - b)`). -/
noncomputable def dist3 (a b : RVec3) : ℝ := (a.sub b).norm

/-- A 3×3 real matrix with explicit entries (row-major). -/
structure Mat3 where
  a00 : ℝ
  a01 : ℝ
  a02 : ℝ
  a10 : ℝ
  a11 : ℝ
  a12 : ℝ
  a20 : ℝ
  a21 : ℝ
  a22 : ℝ

namespace Mat3

def mulVec (M : Mat3) (v : RVec3) : RVec3 :=
  ⟨M.a00 * v.x + M.a01 * v.y + M.a02 * v.z,
   M.a10 * v.x + M.a11 * v.y + M.a12 * v.z,
   M.a20 * v.x + M.a21 * v.y + M.a22 * v.z⟩

def id3 : Mat3 := ⟨1, 0, 0, 0, 1, 0, 0, 0, 1⟩

def addM (A B : Mat3) : Mat3 :=
  ⟨A.a00 + B.a00, A.a01 + B.a01, A.a02 + B.a02,
   A.a10 + B.a10, A.a11 + B.a11, A.a12 + B.a12,
   A.a20 + B.a20, A.a21 + B.a21, A.a22 + B.a22⟩

def smulM (c : ℝ) (A : Mat3) : Mat3 :=
  ⟨c * A.a00, c * A.a01, c * A.a02,
   c * A.a10, c * A.a11, c * A.a12,
   c * A.a20, c * A.a21, c * A.a22⟩

def mulM (A B : Mat3) : Mat3 :=
  ⟨A.a00 * B.a00 + A.a01 * B.a10 + A.a02 * B.a20,
   A.a00 * B.a01 + A.a01 * B.a11 + A.a02 * B.a21,
   A.a00 * B.a02 + A.a01 * B.a12 + A.a02 * B.a22,
   A.a10 * B.a00 + A.a11 * B.a10 + A.a12 * B.a20,
   A.a10 * B.a01 + A.a11 * B.a11 + A.a12 * B.a21,
   A.a10 * B.a02 + A.a11 * B.a12 + A.a12 * B.a22,
   A.a20 * B.a00 + A.a21 * B.a10 + A.a22 * B.a20,
   A.a20 * B.a01 + A.a21 * B.a11 + A.a22 * B.a21,
   A.a20 * B.a02 + A.a21 * B.a12 + A.a22 * B.a22⟩

end Mat3

/-- The skew-symmetric "cross-product" matrix `[a]ₓ` of a vector. -/
def skewMat (a : RVec3) : Mat3 :=
  ⟨0, -a.z, a.y,
   a.z, 0, -a.x,
   -a.y, a.x, 0⟩

/-- Rodrigues rotation matrix, the semantics of
`o3d.geometry.get_rotation_matrix_from_axis_angle(axis * angle)`:
`R = I + sin θ · [a]ₓ + (1 - cos θ) · [a]ₓ²` for a unit axis `a`. -/
noncomputable def rodrigues (a : RVec3) (θ : ℝ) : Mat3 :=
  (Mat3.id3.addM (Mat3.smulM (Real.sin θ) (skewMat a))).addM
    (Mat3.smulM (1 - Real.cos θ) ((skewMat a).mulM (skewMat a)))

/-! ### Voxel grids, volumes, and the affine transform -/

/-- A voxel index `(i, j, k)` into a 3-D array. -/
abbrev Vox : Type := ℤ × ℤ × ℤ

/-- A boolean 3-D mask, as the finite set of `True` voxels. -/
abbrev Mask : Type := Finset Vox

/-- Cast a voxel index to a real 3-vector. -/
def voxToR (v : Vox) : RVec3 := ⟨(v.1 : ℝ), (v.2.1 : ℝ), (v.2.2 : ℝ)⟩

/-- Lexicographic order on voxel indices (C order, the order in which
`np.argwhere` lists the `True` voxels of a mask). -/
def voxLe (a b : Vox) : Prop :=
  a.1 < b.1 ∨ (a.1 = b.1 ∧ (a.2.1 < b.2.1 ∨ (a.2.1 = b.2.1 ∧ a.2.2 ≤ b.2.2)))

instance : DecidableRel voxLe := fun a b => by unfold voxLe; infer_instance

instance : IsTrans Vox voxLe :=
  ⟨by intro a b c hab hbc; unfold voxLe at *; omega⟩

instance : IsAntisymm Vox voxLe := by
  refine ⟨fun a b hab hba => ?_⟩
  obtain ⟨a1, a2, a3⟩ := a
  obtain ⟨b1, b2, b3⟩ := b
  unfold voxLe at hab hba
  simp only [Prod.mk.injEq]
  dsimp only at hab hba ⊢
  omega

instance : IsTotal Vox voxLe :=
  ⟨by intro a b; unfold voxLe; omega⟩

/-- `np.argwhere(mask)`: the voxels of a mask listed in C order. -/
def argwhere (S : Mask) : List Vox := S.sort voxLe

/-- The labelled segmentation volume `new_seg_scan`: integer labels on a
`d0 × d1 × d2` grid (`data` is only meaningful on in-range indices). -/
structure Volume where
  d0 : ℤ
  d1 : ℤ
  d2 : ℤ
  data : Vox → ℕ

/-- `new_seg_scan == label_idx`: the boolean mask of one label. -/
def maskOf (vol : Volume) (label_idx : ℕ) : Mask :=
  ((Finset.Icc 0 (vol.d0 - 1)) ×ˢ (Finset.Icc 0 (vol.d1 - 1)) ×ˢ
      (Finset.Icc 0 (vol.d2 - 1))).filter (fun v => vol.data v = label_idx)

/-- The 4×4 NIfTI affine, split into its linear part `affine[:3,:3]` and
translation `affine[:3,3]`. -/
structure Affine4 where
  linear : Mat3
  trans : RVec3

/-- Apply the affine to a point (`(affine @ [p, 1])[:3]`). -/
def Affine4.apply (A : Affine4) (p : RVec3) : RVec3 :=
  (A.linear.mulVec p).add A.trans

/-- `voxel_spacing = np.linalg.norm(affine[:3, :3], axis=0)`: per-axis
voxel spacing, the column norms of the affine's linear part. -/
noncomputable def spacingVec (A : Affine4) : RVec3 :=
  ⟨Real.sqrt (A.linear.a00 ^ 2 + A.linear.a10 ^ 2 + A.linear.a20 ^ 2),
   Real.sqrt (A.linear.a01 ^ 2 + A.linear.a11 ^ 2 + A.linear.a21 ^ 2),
   Real.sqrt (A.linear.a02 ^ 2 + A.linear.a12 ^ 2 + A.linear.a22 ^ 2)⟩

/-! ### The point labeller (`analysis_pipeline.py` lines 89–102) -/

/-- `np.round`: round half to even (numpy semantics), then cast to int. -/
noncomputable def npRound (x : ℝ) : ℤ :=
  if Int.fract x = 1 / 2 then (if 2 ∣ ⌊x⌋ then ⌊x⌋ else ⌊x⌋ + 1) else round x

/-- Clamp one index into `[lo, hi]` (one axis of `np.clip`). -/
def clampIdx (v lo hi : ℤ) : ℤ := max lo (min v hi)

/-- `np.clip(voxel_coords, [0,0,0], dims - 1)`. -/
def clampVox (vol : Volume) (v : Vox) : Vox :=
  (clampIdx v.1 0 (vol.d0 - 1), clampIdx v.2.1 0 (vol.d1 - 1), clampIdx v.2.2 0 (vol.d2 - 1))

/-- The rounded voxel coordinate of a world point: apply the inverse affine
(line 93) and round each coordinate to the nearest integer (line 94). -/
noncomputable def roundedVoxel (invA : Affine4) (p : RVec3) : Vox :=
  let vc := invA.apply p
  (npRound vc.x, npRound vc.y, npRound vc.z)

/-- Whether a voxel index is inside the volume's index range. -/
def inRangeVox (vol : Volume) (v : Vox) : Prop :=
  0 ≤ v.1 ∧ v.1 ≤ vol.d0 - 1 ∧ 0 ≤ v.2.1 ∧ v.2.1 ≤ vol.d1 - 1 ∧
    0 ≤ v.2.2 ∧ v.2.2 ≤ vol.d2 - 1

instance (vol : Volume) (v : Vox) : Decidable (inRangeVox vol v) := by
  unfold inRangeVox; infer_instance

/-- Label one world point (lines 92–99): inverse affine, round, clamp to the
valid index range, index the label volume. -/
noncomputable def labelPoint (vol : Volume) (invA : Affine4) (p : RVec3) : ℕ :=
  vol.data (clampVox vol (roundedVoxel invA p))

/-- `point_labels` for the whole point cloud. -/
noncomputable def labelPoints (vol : Volume) (invA : Affine4) (points : List RVec3) : List ℕ :=
  points.map (labelPoint vol invA)

/-! ### Python float values and numpy reductions -/

/-- A Python float as stored into the metrics dictionary: `nan`
(`np.nan`, the "absent" marker), `inf` (`np.inf`, as produced by
`dijkstra` for unreachable nodes), or a finite real value. -/
inductive PyVal where
  | nan : PyVal
  | inf : PyVal
  | val : ℝ → PyVal

/-- Extended distance value: `none` is `+∞` (an unreachable node). -/
abbrev DistVal : Type := Option ℝ

/-- `min` with `none = +∞`. -/
noncomputable def omin : DistVal → DistVal → DistVal
  | none, b => b
  | some a, none => some a
  | some a, some b => some (min a b)

/-- Add a finite weight to an extended distance. -/
def oadd : DistVal → ℝ → DistVal
  | none, _ => none
  | some a, w => some (a + w)

/-- Strict comparison with `none = +∞`. -/
noncomputable def oLt (a b : DistVal) : Bool :=
  match a, b with
  | none, _ => false
  | some _, none => true
  | some a, some b => decide (a < b)

/-- `np.argmax` over extended distances: index of the first maximum. -/
noncomputable def npArgmaxOAux : List DistVal → ℕ → ℕ → DistVal → ℕ
  | [], _, best, _ => best
  | y :: ys, i, best, m =>
      if oLt m y then npArgmaxOAux ys (i + 1) i y else npArgmaxOAux ys (i + 1) best m

/-- `np.argmax` over a list of extended distances. -/
noncomputable def npArgmaxO : List DistVal → ℕ
  | [] => 0
  | x :: xs => npArgmaxOAux xs 1 0 x

/-- `np.max` over extended distances (`none` absorbs, as `inf` does). -/
noncomputable def omax2 : DistVal → DistVal → DistVal
  | none, _ => none
  | _, none => none
  | some a, some b => some (max a b)

/-- `np.max` of a nonempty list of extended distances. -/
noncomputable def npMaxO : List DistVal → DistVal
  | [] => some 0
  | x :: xs => xs.foldl omax2 x

/-- `np.argmax` over plain reals: index of the first maximum. -/
noncomputable def npArgmaxRAux : List ℝ → ℕ → ℕ → ℝ → ℕ
  | [], _, best, _ => best
  | y :: ys, i, best, m =>
      if m < y then npArgmaxRAux ys (i + 1) i y else npArgmaxRAux ys (i + 1) best m

/-- `np.argmax` over a list of reals. -/
noncomputable def npArgmaxR : List ℝ → ℕ
  | [] => 0
  | x :: xs => npArgmaxRAux xs 1 0 x

/-- `np.min` of a list of reals (junk `0` on the empty list). -/
noncomputable def npMinR : List ℝ → ℝ
  | [] => 0
  | x :: xs => xs.foldl min x

/-- `np.max` of a list of reals (junk `0` on the empty list). -/
noncomputable def npMaxR : List ℝ → ℝ
  | [] => 0
  | x :: xs => xs.foldl max x

/-- `np.mean` of a list of reals. -/
noncomputable def npMean (l : List ℝ) : ℝ := l.sum / (l.length : ℝ)

/-- Insert into a `≤`-sorted list of reals. -/
noncomputable def insR (x : ℝ) : List ℝ → List ℝ
  | [] => [x]
  | y :: ys => if x ≤ y then x :: y :: ys else y :: insR x ys

/-- Ascending insertion sort of a list of reals. -/
noncomputable def sortR (l : List ℝ) : List ℝ := l.foldr insR []

/-- `np.median`: middle element of the sorted list, or the average of the
two middle elements for an even length. -/
noncomputable def npMedian (l : List ℝ) : ℝ :=
  let s := sortR l
  if l.length % 2 = 1 then s.getD (l.length / 2) 0
  else (s.getD (l.length / 2 - 1) 0 + s.getD (l.length / 2) 0) / 2

/-- The `diameter_stats` dictionary (`metrics_utils.py` lines 70–75). -/
structure DiameterStats where
  dmin : ℝ
  dmean : ℝ
  dmedian : ℝ
  dmax : ℝ

/-- `{"min": np.min(d), "mean": np.mean(d), "median": np.median(d), "max": np.max(d)}`. -/
noncomputable def npStats (l : List ℝ) : DiameterStats :=
  ⟨npMinR l, npMean l, npMedian l, npMaxR l⟩

/-! ### External-library interface -/

/-- A serializable triangle mesh: vertex list plus triangles of vertex
indices (`{"vertices": ..., "triangles": ...}`). -/
structure SerializableMesh where
  vertices : List RVec3
  triangles : List (ℕ × ℕ × ℕ)

/-- Uninterpreted models of the external library calls the pipeline makes
(scipy / skimage / open3d).  The repository's own logic is embedded exactly;
these functions are parameters of the embedding. -/
structure ExtLib where
  /-- `skimage.morphology.binary_opening(mask, footprint)`; the `Bool` is
  the repository's isotropy flag selecting the 26- vs 6-connectivity
  structuring element (`metrics_utils.py` lines 29–35). -/
  binaryOpening : Mask → Bool → Mask
  /-- `skimage.morphology.skeletonize`. -/
  skeletonize : Mask → Mask
  /-- `scipy.ndimage.label` with the default 6-connectivity structure: the
  connected fragments of the skeleton as label-ordered voxel sets
  (labels `1 .. num_features`). -/
  labelComponents : Mask → List Mask
  /-- `scipy.ndimage.distance_transform_edt(mask, sampling=voxel_spacing)`
  evaluated at one voxel. -/
  edt : Mask → RVec3 → Vox → ℝ
  /-- Vertices returned by `skimage.measure.marching_cubes(smoothed, level=0.2,
  spacing=voxel_spacing)` on the padded/hole-filled/Gaussian-smoothed mask
  (already scaled by the anisotropic spacing). -/
  marchingCubesVerts : Mask → List RVec3
  /-- Faces returned by the same `marching_cubes` call. -/
  marchingCubesFaces : Mask → List (ℕ × ℕ × ℕ)
  /-- The open3d cleanup performed by `compute_mesh_metrics`
  (`remove_degenerate_triangles`, `remove_duplicated_vertices`,
  `remove_unreferenced_vertices`). -/
  cleanMesh : SerializableMesh → SerializableMesh
  /-- `mesh.get_surface_area()`. -/
  meshSurfaceArea : SerializableMesh → ℝ
  /-- `mesh.get_volume()`. -/
  meshVolume : SerializableMesh → ℝ
  /-- `mesh.is_watertight()`. -/
  meshIsWatertight : SerializableMesh → Bool
  /-- Mean of `RaycastingScene.compute_distance(points)` — mean distance
  from each input point to the mesh surface. -/
  meanDistPointsToMesh : List RVec3 → SerializableMesh → ℝ
  /-- Mean of `compute_point_cloud_distance` — mean distance from each mesh
  vertex to the nearest input point. -/
  meanDistVertsToPoints : SerializableMesh → List RVec3 → ℝ

/-- `compute_mesh_metrics` (`metrics_utils.py` lines 135–144): zeros for an
empty mesh, else clean the mesh and query area / watertightness / volume
(volume only if watertight, else `0`). -/
def compute_mesh_metrics (ext : ExtLib) (m : SerializableMesh) : ℝ × ℝ × Bool :=
  if m.vertices.isEmpty || m.triangles.isEmpty then (0, 0, false)
  else
    let c := ext.cleanMesh m
    let wt := ext.meshIsWatertight c
    (ext.meshSurfaceArea c, if wt then ext.meshVolume c else 0, wt)

/-- `compute_reconstruction_quality_metrics` (`metrics_utils.py` lines
157–175): empty dict (`none`) for empty inputs, else the sum of the two
mean nearest-distance queries. -/
def compute_reconstruction_quality_metrics (ext : ExtLib) (points : List RVec3)
    (mesh : SerializableMesh) : Option ℝ :=
  if points.isEmpty || mesh.vertices.isEmpty then none
  else some (ext.meanDistPointsToMesh points mesh + ext.meanDistVertsToPoints mesh points)

/-! ### `compute_tangent` (`utils/geometric_utils.py`) -/

/-- `compute_tangent(pts, i)`: finite differences; `none` models the
`IndexError` raised when `pts[i + 1]` does not exist.  At `i == 0` the code
reads `pts[i + 1]` unconditionally. -/
def compute_tangent (pts : List RVec3) (i : ℕ) : Option RVec3 :=
  if i = 0 then
    match pts[1]?, pts[0]? with
    | some a, some b => some (a.sub b)
    | _, _ => none
  else if i = pts.length - 1 then
    match pts[i]?, pts[i - 1]? with
    | some a, some b => some (a.sub b)
    | _, _ => none
  else
    match pts[i + 1]?, pts[i - 1]? with
    | some a, some b => some (a.sub b)
    | _, _ => none

/-! ### `create_flat_disc` (`utils/plot_utils.py` lines 43–97) -/

/-- The positive Z axis. -/
def zAxis : RVec3 := ⟨0, 0, 1⟩

/-- `np.linspace(0, 2π, resolution, endpoint=False)[k] = 2πk / resolution`. -/
noncomputable def discAngle (res k : ℕ) : ℝ := 2 * Real.pi * (k : ℝ) / (res : ℝ)

/-- `np.c_[cos, sin, 0] * radius`: the perimeter vertices in the XY plane. -/
noncomputable def circlePoints (radius : ℝ) (res : ℕ) : List RVec3 :=
  (List.range res).map
    (fun k => ⟨radius * Real.cos (discAngle res k), radius * Real.sin (discAngle res k), 0⟩)

/-- `np.vstack([[0,0,0], circle_points])`: centre vertex then perimeter. -/
noncomputable def discBaseVertices (radius : ℝ) (res : ℕ) : List RVec3 :=
  ⟨0, 0, 0⟩ :: circlePoints radius res

/-- `[[0, i, i+1] for i in range(1, resolution)] + [[0, resolution, 1]]`:
the fan triangulation. -/
def discTriangles (res : ℕ) : List (ℕ × ℕ × ℕ) :=
  ((List.range' 1 (res - 1)).map (fun i => (0, i, i + 1))) ++ [(0, res, 1)]

open Classical in
/-- The rotation aligning the Z axis with the (already normalised) disc
normal, as built in Step 2 of `create_flat_disc`: axis = `cross(z, normal)`
normalised (with the antiparallel fallback to the X axis and the default Y
axis), angle = `arccos(clip(dot(z, normal), -1, 1))`, Rodrigues matrix. -/
noncomputable def discRotationMat (normal : RVec3) : Mat3 :=
  let axis0 := zAxis.cross normal
  let axis : RVec3 :=
    if axis0.norm = 0 then
      (if normal = RVec3.smul (-1) zAxis then ⟨1, 0, 0⟩ else ⟨0, 1, 0⟩)
    else RVec3.smul (1 / axis0.norm) axis0
  let angle := Real.arccos (min 1 (max (-1) (zAxis.dot normal)))
  rodrigues axis angle

open Classical in
/-- `create_flat_disc(center, radius, normal, resolution)`: normalise the
normal (zero vector falls back to the Z axis), build the fan disc in the XY
plane, rotate it onto the normal unless the normal already equals the Z
axis (`np.allclose` modelled as exact equality), translate to the centre. -/
noncomputable def create_flat_disc (center : RVec3) (radius : ℝ) (normal0 : RVec3)
    (resolution : ℕ := 60) : SerializableMesh :=
  let normal := if normal0.norm = 0 then zAxis else RVec3.smul (1 / normal0.norm) normal0
  let verts0 := discBaseVertices radius resolution
  let verts1 :=
    if normal = zAxis then verts0 else verts0.map ((discRotationMat normal).mulVec)
  { vertices := verts1.map (fun v => v.add center), triangles := discTriangles resolution }

/-! ### Models of `scipy.sparse.csgraph` on the fragment-centroid graph -/

/-- `scipy.spatial.distance.cdist(centroids, centroids)` as a weight
function: Euclidean distance between centroid `i` and centroid `j`. -/
noncomputable def cdistW (cs : List RVec3) (i j : ℕ) : ℝ :=
  dist3 (cs.getD i ⟨0, 0, 0⟩) (cs.getD j ⟨0, 0, 0⟩)

open Classical in
/-- The first minimum of a list under a weight function. -/
noncomputable def pickMinBy (f : ℕ × ℕ → ℝ) : List (ℕ × ℕ) → Option (ℕ × ℕ)
  | [] => none
  | x :: xs =>
    match pickMinBy f xs with
    | none => some x
    | some y => if f y < f x then some y else some x

open Classical in
/-- The minimum-weight crossing edge between the visited set and the rest.
A dense matrix handed to `scipy.sparse.csgraph` is converted to CSR, which
stores no explicit zeros: zero-weight entries are absent edges, hence the
`≠ 0` filter. -/
noncomputable def minCross (w : ℕ → ℕ → ℝ) (visited rest : List ℕ) : Option (ℕ × ℕ) :=
  pickMinBy (fun p => w p.1 p.2)
    ((visited.flatMap (fun i => rest.map (fun j => (i, j)))).filter
      (fun p => decide (w p.1 p.2 ≠ 0)))

open Classical in
/-- Prim's algorithm grown into a spanning forest: repeatedly attach the
cheapest crossing edge; when no crossing edge exists (disconnected graph),
start a new component at the lowest-index unvisited node. -/
noncomputable def primForestAux (w : ℕ → ℕ → ℝ) :
    ℕ → List ℕ → List ℕ → List (ℕ × ℕ) → List (ℕ × ℕ)
  | 0, _, _, es => es
  | fuel + 1, visited, rest, es =>
    match rest with
    | [] => es
    | r0 :: rtail =>
      match minCross w visited rest with
      | some (i, j) =>
          primForestAux w fuel (visited ++ [j]) (rest.erase j) (es ++ [(i, j)])
      | none => primForestAux w fuel (visited ++ [r0]) rtail es

/-- `scipy.sparse.csgraph.minimum_spanning_tree` on the dense `n × n`
distance matrix `w`: the edge list of a minimum spanning forest of the
graph whose edges are the nonzero entries. -/
noncomputable def minimum_spanning_tree (w : ℕ → ℕ → ℝ) (n : ℕ) : List (ℕ × ℕ) :=
  match n with
  | 0 => []
  | m + 1 => primForestAux w m [0] (List.range' 1 m) []

/-- `mst.sum()`: total weight of the spanning-forest edges. -/
noncomputable def mstSum (w : ℕ → ℕ → ℝ) (es : List (ℕ × ℕ)) : ℝ :=
  (es.map (fun e => w e.1 e.2)).sum

open Classical in
/-- Relax the tentative distance of node `v` across one undirected edge. -/
noncomputable def relaxEdge (w : ℕ → ℕ → ℝ) (d : List DistVal) (v : ℕ)
    (acc : DistVal) (e : ℕ × ℕ) : DistVal :=
  let acc1 := if e.2 = v then omin acc (oadd (d.getD e.1 none) (w e.1 e.2)) else acc
  if e.1 = v then omin acc1 (oadd (d.getD e.2 none) (w e.1 e.2)) else acc1

/-- One round of Bellman–Ford relaxation over every node. -/
noncomputable def relaxOnce (w : ℕ → ℕ → ℝ) (es : List (ℕ × ℕ)) (d : List DistVal) :
    List DistVal :=
  (List.range d.length).map (fun v => es.foldl (relaxEdge w d v) (d.getD v none))

/-- `scipy.sparse.csgraph.dijkstra(csgraph=mst, directed=False, indices=src)`:
single-source shortest-path distances over the undirected edge list
(`none` = `inf`, an unreachable node).  Computed here by `n` rounds of
Bellman–Ford relaxation, which yields the same distances on the
nonnegative weights used by the pipeline. -/
noncomputable def dijkstraDistances (w : ℕ → ℕ → ℝ) (es : List (ℕ × ℕ)) (n src : ℕ) :
    List DistVal :=
  (relaxOnce w es)^[n] ((List.range n).map (fun v => if v = src then some 0 else none))

open Classical in
/-- The predecessor of `v` on a shortest path from `src` (given the final
distance array): the first tree neighbour `u` with `d[u] + w(u,v) = d[v]`;
`-9999` for the source and unreachable nodes, as scipy reports. -/
noncomputable def predOf (w : ℕ → ℕ → ℝ) (es : List (ℕ × ℕ)) (dist : List DistVal)
    (src v : ℕ) : ℤ :=
  if v = src then -9999
  else
    match (es.filter (fun e => decide (e.1 = v ∨ e.2 = v))).find?
        (fun e =>
          let u := if e.1 = v then e.2 else e.1
          decide (oadd (dist.getD u none) (w e.1 e.2) = dist.getD v none)) with
    | some e => ((if e.1 = v then e.2 else e.1 : ℕ) : ℤ)
    | none => -9999

/-- The `while current_node != -9999` loop of `compute_centerline_metrics`
(lines 121–126), with fuel; the collected path is reversed at the end. -/
noncomputable def buildPathAux (pred : ℕ → ℤ) : ℕ → ℤ → List ℕ → List ℕ
  | 0, _, acc => acc
  | fuel + 1, cur, acc =>
      if cur = -9999 then acc
      else buildPathAux pred fuel (pred cur.toNat) (acc ++ [cur.toNat])

/-- The node path from the second endpoint back to the first, reversed into
forward order (`path = path[::-1]`). -/
noncomputable def buildPath (pred : ℕ → ℤ) (n endpoint : ℕ) : List ℕ :=
  (buildPathAux pred (n + 1) (endpoint : ℤ) []).reverse

/-! ### `compute_centerline_metrics` (`utils/metrics_utils.py` lines 12–132) -/

/-- `scipy.ndimage.center_of_mass` of one fragment, in voxel coordinates:
the mean voxel index. -/
noncomputable def centroidVox (F : Mask) : RVec3 :=
  ⟨(F.sum (fun v => (v.1 : ℝ))) / (F.card : ℝ),
   (F.sum (fun v => (v.2.1 : ℝ))) / (F.card : ℝ),
   (F.sum (fun v => (v.2.2 : ℝ))) / (F.card : ℝ)⟩

/-- A fragment centroid moved to world millimetre space by the affine
(lines 96–98). -/
noncomputable def mmCentroid (A : Affine4) (F : Mask) : RVec3 :=
  A.apply (centroidVox F)

open Classical in
/-- `is_isotropic` (line 29): `np.allclose` on the spacing components,
modelled as exact equality. -/
noncomputable def isoFlag (A : Affine4) : Bool :=
  decide ((spacingVec A).x = (spacingVec A).y) && decide ((spacingVec A).y = (spacingVec A).z)

/-- `cleaned_mask` (lines 30–35): binary opening with the
isotropy-dependent structuring element. -/
noncomputable def cleanedMaskOf (ext : ExtLib) (mask : Mask) (A : Affine4) : Mask :=
  ext.binaryOpening mask (isoFlag A)

/-- `skeleton = skeletonize(cleaned_mask)` (line 40). -/
noncomputable def skeletonOf (ext : ExtLib) (mask : Mask) (A : Affine4) : Mask :=
  ext.skeletonize (cleanedMaskOf ext mask A)

/-- `skeleton_voxels = np.argwhere(skeleton)` (line 48). -/
noncomputable def skeletonVoxelsOf (ext : ExtLib) (mask : Mask) (A : Affine4) : List Vox :=
  argwhere (skeletonOf ext mask A)

/-- `skeleton_mm` (lines 51–52): skeleton voxels through the affine. -/
noncomputable def skeletonMMOf (ext : ExtLib) (mask : Mask) (A : Affine4) : List RVec3 :=
  (skeletonVoxelsOf ext mask A).map (fun v => A.apply (voxToR v))

/-- `diameters_mm` (line 55): the Euclidean distance transform of the
**original** mask (not the padded or opened one), with per-axis
voxel-spacing sampling, sampled at each skeleton voxel and doubled. -/
noncomputable def diametersProfile (ext : ExtLib) (mask : Mask) (A : Affine4) : List ℝ :=
  (skeletonVoxelsOf ext mask A).map (fun v => ext.edt mask (spacingVec A) v * 2)

/-- The path the diameter plot is saved to (`plot_diameter`,
`utils/plot_utils.py` lines 7–40; the plotting itself is a side effect). -/
def plot_diameter_path (destination_folder patient_id name : String) : String :=
  destination_folder ++ "/diameter_profiles/" ++ patient_id ++ "/" ++
    (String.intercalate "_" (name.splitOn " ")) ++ ".png"

/-- The `metrics` dictionary assembled by `compute_centerline_metrics`
(lines 80–87, updated at lines 115–119). -/
structure CMetrics where
  diameters : DiameterStats
  len : PyVal
  tortuosity : PyVal
  quality : PyVal
  max_diameter_location : RVec3
  tangent_at_max_diameter_location : RVec3

/-- The `vis_data` dictionary (line 79, updated at lines 128–130). -/
structure VisData where
  points : Option (List RVec3)
  connections : Option (List (ℕ × ℕ))

/-- The value returned by `compute_centerline_metrics` on success
(line 132). -/
structure CenterlineResult where
  metrics : CMetrics
  vis_data : VisData
  plot_path : String

open Classical in
/-- `compute_centerline_metrics(mask, affine, name, destination_folder,
patient_id)`: the full function.  `.ok none` models the early `return
None`s; `.error` models an uncaught exception (the `IndexError` raised by
`compute_tangent` when the skeleton has a single voxel); `.ok (some r)`
is a normal return. -/
noncomputable def compute_centerline_metrics (ext : ExtLib) (mask : Mask) (A : Affine4)
    (name : String := "Vessel") (destination_folder : String := "outputs")
    (patient_id : String := "dummy_patient_id") : Except String (Option CenterlineResult) :=
  if ¬ mask.Nonempty then .ok none
  else
    let cleaned := cleanedMaskOf ext mask A
    if ¬ cleaned.Nonempty then .ok none
    else
      let skeleton := ext.skeletonize cleaned
      if ¬ skeleton.Nonempty then .ok none
      else
        let parts := ext.labelComponents skeleton
        let num_features := parts.length
        if num_features = 0 then .ok none
        else
          let skeleton_voxels := argwhere skeleton
          let skeleton_mm := skeleton_voxels.map (fun v => A.apply (voxToR v))
          let diameters_mm := skeleton_voxels.map (fun v => ext.edt mask (spacingVec A) v * 2)
          if diameters_mm.length = 0 then .ok none
          else
            let plot_path := plot_diameter_path destination_folder patient_id name
            let max_diam_idx := npArgmaxR diameters_mm
            let max_diam_location_mm := skeleton_mm.getD max_diam_idx ⟨0, 0, 0⟩
            let diameter_stats := npStats diameters_mm
            match compute_tangent skeleton_mm max_diam_idx with
            | none => .error "IndexError: index 1 is out of bounds"
            | some tangent =>
              let metrics0 : CMetrics :=
                { diameters := diameter_stats, len := .nan, tortuosity := .nan,
                  quality := .nan, max_diameter_location := max_diam_location_mm,
                  tangent_at_max_diameter_location := tangent }
              let vis0 : VisData := ⟨none, none⟩
              if 1 < num_features then
                -- fragment sizes via bincount; keep labels with > 1 voxels,
                -- excluding background label 0 (lines 90–93)
                let significant := parts.filter (fun F => 1 < F.card)
                if 1 < significant.length then
                  let centroids_mm := significant.map (mmCentroid A)
                  let w := cdistW centroids_mm
                  let n := centroids_mm.length
                  let mstE := minimum_spanning_tree w n
                  let total_mst_length := mstSum w mstE
                  let distances := dijkstraDistances w mstE n 0
                  let first_endpoint_idx := npArgmaxO distances
                  let distances_from_endpoint := dijkstraDistances w mstE n first_endpoint_idx
                  let max_path_length := npMaxO distances_from_endpoint
                  let second_endpoint_idx := npArgmaxO distances_from_endpoint
                  let start_point := centroids_mm.getD first_endpoint_idx ⟨0, 0, 0⟩
                  let end_point := centroids_mm.getD second_endpoint_idx ⟨0, 0, 0⟩
                  let straight_line_dist := dist3 start_point end_point
                  let tort :=
                    if 0 < straight_line_dist then
                      match max_path_length with
                      | none => PyVal.inf
                      | some L => PyVal.val (L / straight_line_dist)
                    else PyVal.nan
                  let qual :=
                    if 0 < total_mst_length then
                      match max_path_length with
                      | none => PyVal.inf
                      | some L => PyVal.val (L / total_mst_length)
                    else PyVal.nan
                  let plen :=
                    match max_path_length with
                    | none => PyVal.inf
                    | some L => PyVal.val L
                  let pred := predOf w mstE distances_from_endpoint first_endpoint_idx
                  let path := buildPath pred n second_endpoint_idx
                  let metrics1 :=
                    { metrics0 with tortuosity := tort, quality := qual, len := plen }
                  let vis1 : VisData := ⟨some centroids_mm, some (path.dropLast.zip path.tail)⟩
                  .ok (some ⟨metrics1, vis1, plot_path⟩)
                else .ok (some ⟨metrics0, vis0, plot_path⟩)
              else .ok (some ⟨metrics0, vis0, plot_path⟩)

/-! ### The orchestrator (`analysis_pipeline.py` lines 50–196) -/

/-- The mesh vertices the code stores for a vessel (lines 127–140): the
marching-cubes vertices with the padding offset (`pad_amount = 2`, times
the voxel spacing) subtracted.  The affine is **not** applied to these:
line 135 constructs the open3d mesh from `verts`, not `verts_world`. -/
noncomputable def storedMeshVertices (ext : ExtLib) (A : Affine4) (mask : Mask) : List RVec3 :=
  (ext.marchingCubesVerts mask).map (fun v => v.sub (RVec3.smul 2 (spacingVec A)))

/-- Modelled from the spec (§4.2 step 5): the world-space mesh vertices the
specification describes — the marching-cubes vertex, minus the padding
offset converted through voxel spacing, with the full affine (rotation and
translation) then applied.  This follows the spec's words, for comparison
with `storedMeshVertices`, which follows the code. -/
noncomputable def specMeshVerticesWorld (ext : ExtLib) (A : Affine4) (mask : Mask) : List RVec3 :=
  (ext.marchingCubesVerts mask).map (fun v => A.apply (v.sub (RVec3.smul 2 (spacingVec A))))

/-- One vessel's record in the results dictionary (`VesselData`,
`analysis_pipeline.py` lines 34–40 and 115–118); the flat `metrics` dict is
split into its keys, each `none` until assigned. -/
structure VesselData where
  mesh : Option SerializableMesh
  centerline : Option (List RVec3 × List (ℕ × ℕ))
  max_diameter_disc : Option SerializableMesh
  surface_area : Option ℝ
  volume : Option ℝ
  is_watertight : Option Bool
  centerline_metrics : Option CMetrics
  quality : Option (Option ℝ)
  diameter_plot_path : Option String

open Classical in
/-- The body of the per-vessel `try` block (lines 120–177), for one label
with a nonempty mask.  Returns the status strings emitted inside the block
(in order) and either the completed record or the exception message.  The
record is **only** produced when the whole block runs to completion —
`results["vessels"][name] = vessel_results` (line 178) sits inside the
`try`, so an exception discards everything computed so far. -/
noncomputable def processVessel (ext : ExtLib) (A : Affine4) (label_idx : ℕ) (name : String)
    (mask : Mask) (points : Option (List RVec3)) (point_labels : Option (List ℕ))
    (destination_folder patient_id : String) : List String × Except String VesselData :=
  let log1 := ["Reconstructing mesh for " ++ name ++ "..."]
  let faces := ext.marchingCubesFaces mask
  -- verts -= pad_amount * voxel_spacing (line 129)
  let verts2 := storedMeshVertices ext A mask
  -- verts_world (lines 132–133) is computed but never used afterwards
  let _verts_world := verts2.map A.apply
  -- the open3d mesh and the stored serializable copy are built from verts2
  let meshStored : SerializableMesh := ⟨verts2, faces⟩
  let mm := compute_mesh_metrics ext meshStored
  -- compute_mesh_metrics cleans the o3d mesh in place; later distance
  -- queries see the cleaned mesh
  let meshCleaned :=
    if meshStored.vertices.isEmpty || meshStored.triangles.isEmpty then meshStored
    else ext.cleanMesh meshStored
  let log2 := log1 ++ ["Analyzing centerline for " ++ name ++ "..."]
  match compute_centerline_metrics ext mask A name destination_folder patient_id with
  | .error e => (log2, .error e)
  | .ok ca =>
    let base : VesselData :=
      { mesh := some meshStored, centerline := none, max_diameter_disc := none,
        surface_area := some mm.1, volume := some mm.2.1, is_watertight := some mm.2.2,
        centerline_metrics := none, quality := none, diameter_plot_path := none }
    let afterCl : VesselData :=
      match ca with
      | none => base
      | some c =>
        let withMetrics :=
          { base with centerline_metrics := some c.metrics,
                      diameter_plot_path := some c.plot_path }
        let withVis :=
          match c.vis_data.points, c.vis_data.connections with
          | some ps, some cons => { withMetrics with centerline := some (ps, cons) }
          | _, _ => withMetrics
        -- max-diameter disc (lines 161–169); the location key is always
        -- present when metrics were returned
        let disc := create_flat_disc c.metrics.max_diameter_location
            (c.metrics.diameters.dmax / 2) c.metrics.tangent_at_max_diameter_location
        { withVis with max_diameter_disc := some ⟨disc.vertices, disc.triangles⟩ }
    match points, point_labels with
    | some ps, some pls =>
      if pls.any (fun l => l = label_idx) then
        let log3 := log2 ++ ["Calculating reconstruction quality for " ++ name ++ "..."]
        let sel := (ps.zip pls).filterMap (fun q => if q.2 = label_idx then some q.1 else none)
        let qm := compute_reconstruction_quality_metrics ext sel meshCleaned
        (log3, .ok { afterCl with quality := some qm })
      else (log2, .ok afterCl)
    | _, _ => (log2, .ok afterCl)

/-- The fixed label-to-name mapping (lines 104–105). -/
def nameOf : ℕ → String
  | 1 => "Aorta"
  | 2 => "Left Iliac Artery"
  | 3 => "Right Iliac Artery"
  | _ => ""

/-- The final analysis result: the per-vessel records in insertion order,
the optional labelled point cloud, and the status strings emitted through
`status_callback`, in order. -/
structure AnalysisOut where
  vessels : List (String × VesselData)
  point_cloud : Option (List RVec3 × List ℕ)
  log : List String

open Classical in
/-- One iteration of the per-label loop (lines 107–182): announce the
vessel, skip entirely on an empty mask (no record created), otherwise run
the `try` block; on success append the record, on an exception append the
`ERROR processing ...` status and keep the vessels map unchanged. -/
noncomputable def stepLabel (ext : ExtLib) (vol : Volume) (A : Affine4)
    (points : Option (List RVec3)) (point_labels : Option (List ℕ))
    (destination_folder patient_id : String)
    (st : List (String × VesselData) × List String) (label_idx : ℕ) :
    List (String × VesselData) × List String :=
  let log := st.2 ++ ["Processing: " ++ nameOf label_idx ++ " (Label " ++
    toString label_idx ++ ")..."]
  let mask := maskOf vol label_idx
  if ¬ mask.Nonempty then (st.1, log)
  else
    let pr := processVessel ext A label_idx (nameOf label_idx) mask points point_labels
      destination_folder patient_id
    match pr.2 with
    | .ok r => (st.1 ++ [(nameOf label_idx, r)], log ++ pr.1)
    | .error e =>
        (st.1, log ++ pr.1 ++ ["ERROR processing " ++ nameOf label_idx ++ ": " ++ e])

open Classical in
/-- `enhanced_vessel_reconstruction_analysis`, from the point where the
arrays are in memory (file loading is boundary I/O outside the core; the
inverse affine `inv_affine = np.linalg.inv(affine)` of line 84 is passed in
as `invA`).  Labels the point cloud if one is present (lines 89–102), runs
the per-label loop over labels 1, 2, 3 (lines 107–182), then attaches the
labelled point cloud (lines 184–191). -/
noncomputable def enhanced_vessel_reconstruction_analysis (ext : ExtLib) (vol : Volume)
    (A : Affine4) (invA : Affine4) (points : Option (List RVec3))
    (destination_folder patient_id : String) : AnalysisOut :=
  let point_labels := points.map (labelPoints vol invA)
  let log1 := ["Loading data..."] ++
    (match points with
     | some _ => ["Mapping point cloud to segmentation labels...", "...mapping complete."]
     | none => [])
  let st1 := stepLabel ext vol A points point_labels destination_folder patient_id
    ([], log1) 1
  let st2 := stepLabel ext vol A points point_labels destination_folder patient_id st1 2
  let st3 := stepLabel ext vol A points point_labels destination_folder patient_id st2 3
  let pc :=
    match points, point_labels with
    | some ps, some pls => some (ps, pls)
    | _, _ => none
  { vessels := st3.1, point_cloud := pc, log := st3.2 ++ ["Analysis complete!"] }

/-- The vessel record of a successful `try` block, `none` on an exception
(projection helper for stating results). -/
def tryResult : Except String VesselData → Option VesselData
  | .ok r => some r
  | .error _ => none

open Classical in
/-- What the orchestrator's loop leaves in the results mapping for one
label: nothing for an empty mask, the record on success, nothing on an
exception. -/
noncomputable def expectedEntry (ext : ExtLib) (vol : Volume) (A : Affine4)
    (points : Option (List RVec3)) (point_labels : Option (List ℕ))
    (destination_folder patient_id : String) (label_idx : ℕ) : Option VesselData :=
  if ¬ (maskOf vol label_idx).Nonempty then none
  else tryResult (processVessel ext A label_idx (nameOf label_idx) (maskOf vol label_idx)
    points point_labels destination_folder patient_id).2

/-! ### Helper lemmas -/

theorem RVec3.ext3 {a b : RVec3} (hx : a.x = b.x) (hy : a.y = b.y) (hz : a.z = b.z) :
    a = b := by
  cases a; cases b; simp_all

theorem argwhere_length (S : Mask) : (argwhere S).length = S.card :=
  Finset.length_sort voxLe

theorem npArgmaxRAux_lt (ys : List ℝ) : ∀ (i best : ℕ) (m : ℝ), best < i →
    npArgmaxRAux ys i best m < i + ys.length := by
  induction ys with
  | nil => intro i best m h; simpa [npArgmaxRAux] using h
  | cons y ys ih =>
    intro i best m h
    simp only [npArgmaxRAux]
    by_cases hc : m < y
    · rw [if_pos hc]
      have := ih (i + 1) i y (Nat.lt_succ_self i)
      simp only [List.length_cons]
      omega
    · rw [if_neg hc]
      have := ih (i + 1) best m (Nat.lt_succ_of_lt h)
      simp only [List.length_cons]
      omega

theorem npArgmaxR_lt_length (l : List ℝ) (h : l ≠ []) : npArgmaxR l < l.length := by
  cases l with
  | nil => exact absurd rfl h
  | cons x xs =>
    have := npArgmaxRAux_lt xs 1 0 x Nat.one_pos
    simpa [npArgmaxR, Nat.add_comm] using this

theorem compute_tangent_isSome (pts : List RVec3) (i : ℕ) (hlen : 2 ≤ pts.length)
    (hi : i < pts.length) : (compute_tangent pts i).isSome = true := by
  unfold compute_tangent
  by_cases h0 : i = 0
  · rw [if_pos h0]
    have h1 : 1 < pts.length := hlen
    have e1 : pts[1]?.isSome := by simp [List.getElem?_eq_getElem h1]
    have h00 : 0 < pts.length := by omega
    have e0 : pts[0]?.isSome := by simp [List.getElem?_eq_getElem h00]
    rcases Option.isSome_iff_exists.mp e1 with ⟨a, ha⟩
    rcases Option.isSome_iff_exists.mp e0 with ⟨b, hb⟩
    rw [ha, hb]
    rfl
  · rw [if_neg h0]
    by_cases hl : i = pts.length - 1
    · rw [if_pos hl]
      have hi1 : i - 1 < pts.length := lt_of_le_of_lt (Nat.sub_le i 1) hi
      have ei : pts[i]?.isSome := by simp [List.getElem?_eq_getElem hi]
      have ei1 : pts[i-1]?.isSome := by simp [List.getElem?_eq_getElem hi1]
      rcases Option.isSome_iff_exists.mp ei with ⟨a, ha⟩
      rcases Option.isSome_iff_exists.mp ei1 with ⟨b, hb⟩
      rw [ha, hb]
      rfl
    · rw [if_neg hl]
      have hip : i + 1 < pts.length := by omega
      have hi1 : i - 1 < pts.length := by omega
      have ei : pts[i+1]?.isSome := by simp [List.getElem?_eq_getElem hip]
      have ei1 : pts[i-1]?.isSome := by simp [List.getElem?_eq_getElem hi1]
      rcases Option.isSome_iff_exists.mp ei with ⟨a, ha⟩
      rcases Option.isSome_iff_exists.mp ei1 with ⟨b, hb⟩
      rw [ha, hb]
      rfl

theorem compute_tangent_singleton (p : RVec3) : compute_tangent [p] 0 = none := by
  simp [compute_tangent]

/-! ### Claim C9: disc mesh counts and index bounds -/

/-- **C9.** For every center, radius, normal, and resolution ≥ 1, the disc
mesh produced by `create_flat_disc` has exactly `resolution + 1` vertices
and `resolution` triangles, and every index of every triangle is within
vertex bounds (between 0 and `resolution` inclusive). -/
theorem C9_disc_counts_and_bounds (center : RVec3) (radius : ℝ) (normal : RVec3)
    (res : ℕ) (hres : 1 ≤ res) :
    (create_flat_disc center radius normal res).vertices.length = res + 1 ∧
    (create_flat_disc center radius normal res).triangles.length = res ∧
    ∀ t ∈ (create_flat_disc center radius normal res).triangles,
      t.1 ≤ res ∧ t.2.1 ≤ res ∧ t.2.2 ≤ res := by
  refine ⟨?_, ?_, ?_⟩
  · simp only [create_flat_disc, List.length_map]
    rw [apply_ite List.length]
    simp [discBaseVertices, circlePoints]
  · simp only [create_flat_disc, discTriangles]
    simp only [List.length_append, List.length_map, List.length_range', List.length_cons,
      List.length_nil]
    omega
  · intro t ht
    simp only [create_flat_disc, discTriangles, List.mem_append, List.mem_map,
      List.mem_range', List.mem_singleton] at ht
    rcases ht with ⟨i, hi, rfl⟩ | rfl
    · dsimp only
      omega
    · dsimp only
      omega

/-- Witness for C9 at `resolution = 3`. -/
theorem C9_witness :
    1 ≤ 3 ∧
    ((create_flat_disc ⟨0, 0, 0⟩ 1 ⟨0, 0, 1⟩ 3).vertices.length = 3 + 1 ∧
     (create_flat_disc ⟨0, 0, 0⟩ 1 ⟨0, 0, 1⟩ 3).triangles.length = 3 ∧
     ∀ t ∈ (create_flat_disc ⟨0, 0, 0⟩ 1 ⟨0, 0, 1⟩ 3).triangles,
       t.1 ≤ 3 ∧ t.2.1 ≤ 3 ∧ t.2.2 ≤ 3) :=
  ⟨by decide, C9_disc_counts_and_bounds ⟨0, 0, 0⟩ 1 ⟨0, 0, 1⟩ 3 (by decide)⟩

/-! ### Geometry of the disc rotation -/

theorem norm_sq3 (a : RVec3) : a.norm ^ 2 = a.x ^ 2 + a.y ^ 2 + a.z ^ 2 :=
  Real.sq_sqrt (by positivity)

theorem norm_eq_zero3 {a : RVec3} (h : a.norm = 0) : a.x = 0 ∧ a.y = 0 ∧ a.z = 0 := by
  have h2 : a.x ^ 2 + a.y ^ 2 + a.z ^ 2 = 0 := by
    have := norm_sq3 a
    rw [h] at this
    linarith [this]
  refine ⟨?_, ?_, ?_⟩ <;> nlinarith [sq_nonneg a.x, sq_nonneg a.y, sq_nonneg a.z]

/-- A Rodrigues rotation about a unit axis preserves the dot product. -/
theorem rodrigues_dot_preserved (a : RVec3) (θ : ℝ) (ha : a.x ^ 2 + a.y ^ 2 + a.z ^ 2 = 1)
    (v w : RVec3) :
    ((rodrigues a θ).mulVec v).dot ((rodrigues a θ).mulVec w) = v.dot w := by
  obtain ⟨ax, ay, az⟩ := a
  obtain ⟨vx, vy, vz⟩ := v
  obtain ⟨wx, wy, wz⟩ := w
  have hs := Real.sin_sq_add_cos_sq θ
  simp only at ha
  simp only [rodrigues, Mat3.id3, Mat3.addM, Mat3.smulM, Mat3.mulM, Mat3.mulVec, skewMat,
    RVec3.dot]
  linear_combination
    ((1 - Real.cos θ) ^ 2 *
        ((ax ^ 2 + ay ^ 2 + az ^ 2) * (vx * wx + vy * wy + vz * wz) -
          (ax * vx + ay * vy + az * vz) * (ax * wx + ay * wy + az * wz))) * ha +
    ((ax ^ 2 + ay ^ 2 + az ^ 2) * (vx * wx + vy * wy + vz * wz) -
        (ax * vx + ay * vy + az * vz) * (ax * wx + ay * wy + az * wz)) * hs

theorem zAxis_cross_eq (u : RVec3) : zAxis.cross u = ⟨-u.y, u.x, 0⟩ := by
  refine RVec3.ext3 ?_ ?_ ?_ <;> simp [RVec3.cross, zAxis]

/-- The rotation built by `create_flat_disc` for a unit normal `u ≠ z`
maps the Z axis to `u` and preserves dot products. -/
theorem discRotationMat_spec (u : RVec3) (hu : u.x ^ 2 + u.y ^ 2 + u.z ^ 2 = 1)
    (huz : u ≠ zAxis) :
    (discRotationMat u).mulVec zAxis = u ∧
    ∀ v w : RVec3,
      ((discRotationMat u).mulVec v).dot ((discRotationMat u).mulVec w) = v.dot w := by
  have hzdot : zAxis.dot u = u.z := by simp [RVec3.dot, zAxis]
  have huz1 : u.z ≤ 1 := by nlinarith [sq_nonneg u.x, sq_nonneg u.y]
  have huzm1 : -1 ≤ u.z := by nlinarith [sq_nonneg u.x, sq_nonneg u.y]
  have hclip : min 1 (max (-1) (zAxis.dot u)) = u.z := by
    rw [hzdot, max_eq_right huzm1, min_eq_right huz1]
  have hcos : Real.cos (Real.arccos u.z) = u.z := Real.cos_arccos huzm1 huz1
  by_cases hxy : u.x ^ 2 + u.y ^ 2 = 0
  · -- `u = (0, 0, ±1)`; with `u ≠ z` this is the antiparallel fallback
    have hx0 : u.x = 0 := by nlinarith [sq_nonneg u.x, sq_nonneg u.y]
    have hy0 : u.y = 0 := by nlinarith [sq_nonneg u.x, sq_nonneg u.y]
    have hzcase : u.z = 1 ∨ u.z = -1 := by
      have h0 : (u.z - 1) * (u.z + 1) = 0 := by nlinarith
      rcases mul_eq_zero.mp h0 with h | h
      · exact Or.inl (by linarith)
      · exact Or.inr (by linarith)
    have hzm : u.z = -1 := by
      rcases hzcase with h | h
      · exact absurd (RVec3.ext3 (by simp [zAxis, hx0]) (by simp [zAxis, hy0])
          (by simp [zAxis, h])) huz
      · exact h
    have hu3 : u = ⟨0, 0, -1⟩ :=
      RVec3.ext3 (by simp [hx0]) (by simp [hy0]) (by simp [hzm])
    subst hu3
    have hn0 : (⟨-(0 : ℝ), (0 : ℝ), (0 : ℝ)⟩ : RVec3).norm = 0 := by
      simp [RVec3.norm]
    have hanti : (⟨0, 0, -1⟩ : RVec3) = RVec3.smul (-1) zAxis :=
      RVec3.ext3 (by norm_num [zAxis, RVec3.smul]) (by norm_num [zAxis, RVec3.smul])
        (by norm_num [zAxis, RVec3.smul])
    have hrot : discRotationMat ⟨0, 0, -1⟩ = rodrigues ⟨1, 0, 0⟩ Real.pi := by
      simp only [discRotationMat, zAxis_cross_eq]
      rw [if_pos hn0, if_pos hanti]
      rw [show min 1 (max (-1) (zAxis.dot ⟨0, 0, -1⟩)) = -1 by
        norm_num [zAxis, RVec3.dot]]
      rw [Real.arccos_neg_one]
    refine ⟨?_, ?_⟩
    · rw [hrot]
      refine RVec3.ext3 ?_ ?_ ?_ <;>
        simp [rodrigues, Mat3.id3, Mat3.addM, Mat3.smulM, Mat3.mulM, Mat3.mulVec,
          skewMat, zAxis, Real.sin_pi, Real.cos_pi]
    · intro v w
      rw [hrot]
      exact rodrigues_dot_preserved ⟨1, 0, 0⟩ Real.pi (by norm_num) v w
  · -- the generic case: axis `cross(z, u)` normalised
    have hxy0 : 0 < u.x ^ 2 + u.y ^ 2 :=
      lt_of_le_of_ne (by positivity) (Ne.symm hxy)
    have hS2 : (⟨-u.y, u.x, 0⟩ : RVec3).norm ^ 2 = u.x ^ 2 + u.y ^ 2 := by
      rw [norm_sq3]; ring
    have hSnn : 0 ≤ (⟨-u.y, u.x, 0⟩ : RVec3).norm := Real.sqrt_nonneg _
    have hSne : (⟨-u.y, u.x, 0⟩ : RVec3).norm ≠ 0 := by
      intro h
      rw [h] at hS2
      simp at hS2
      exact hxy hS2.symm
    have hsinS : Real.sin (Real.arccos u.z) = (⟨-u.y, u.x, 0⟩ : RVec3).norm := by
      rw [Real.sin_arccos]
      rw [show 1 - u.z ^ 2 = u.x ^ 2 + u.y ^ 2 by linarith]
      unfold RVec3.norm
      congr 1
      ring
    have hrot : discRotationMat u =
        rodrigues (RVec3.smul (1 / (⟨-u.y, u.x, 0⟩ : RVec3).norm) ⟨-u.y, u.x, 0⟩)
          (Real.arccos u.z) := by
      simp only [discRotationMat, zAxis_cross_eq, hclip, if_neg hSne]
    have haxu : (RVec3.smul (1 / (⟨-u.y, u.x, 0⟩ : RVec3).norm) ⟨-u.y, u.x, 0⟩).x ^ 2 +
        (RVec3.smul (1 / (⟨-u.y, u.x, 0⟩ : RVec3).norm) ⟨-u.y, u.x, 0⟩).y ^ 2 +
        (RVec3.smul (1 / (⟨-u.y, u.x, 0⟩ : RVec3).norm) ⟨-u.y, u.x, 0⟩).z ^ 2 = 1 := by
      simp only [RVec3.smul]
      field_simp
      linarith [hS2]
    refine ⟨?_, ?_⟩
    · rw [hrot]
      refine RVec3.ext3 ?_ ?_ ?_ <;>
        simp only [rodrigues, Mat3.id3, Mat3.addM, Mat3.smulM, Mat3.mulM, Mat3.mulVec,
          skewMat, RVec3.smul, zAxis, hsinS, hcos] <;>
        field_simp <;>
        first
          | nlinarith [hS2, sq_nonneg ((⟨-u.y, u.x, 0⟩ : RVec3).norm)]
          | linear_combination ((1 - u.z) * ((⟨-u.y, u.x, 0⟩ : RVec3).norm) ^ 2) * hS2
    · intro v w
      rw [hrot]
      exact rodrigues_dot_preserved _ _ haxu v w

theorem dot_self_eq (v : RVec3) : v.dot v = v.x ^ 2 + v.y ^ 2 + v.z ^ 2 := by
  simp [RVec3.dot]; ring

theorem add_sub_cancel3 (w c : RVec3) : (w.add c).sub c = w :=
  RVec3.ext3 (by simp [RVec3.add, RVec3.sub]) (by simp [RVec3.add, RVec3.sub])
    (by simp [RVec3.add, RVec3.sub])

theorem circlePoints_mem (radius : ℝ) (res : ℕ) {w : RVec3}
    (hw : w ∈ circlePoints radius res) :
    w.x ^ 2 + w.y ^ 2 + w.z ^ 2 = radius ^ 2 ∧ w.z = 0 := by
  simp only [circlePoints, List.mem_map] at hw
  obtain ⟨k, _, rfl⟩ := hw
  refine ⟨?_, rfl⟩
  have hsc := Real.sin_sq_add_cos_sq (discAngle res k)
  dsimp only
  linear_combination radius ^ 2 * hsc

/-- **C4 (amended).** For every center, positive radius, normal, and
resolution, every vertex of the disc mesh **except the leading centre
vertex** lies at exactly `radius` distance from `center`, and every such
vertex lies in the plane through `center` orthogonal to `normal` (the
centre vertex itself coincides with `center`, at distance 0). -/
theorem C4_disc_vertices_on_circle (center : RVec3) (radius : ℝ) (normal : RVec3)
    (res : ℕ) (hr : 0 < radius) :
    ∀ v ∈ (create_flat_disc center radius normal res).vertices.tail,
      dist3 v center = radius ∧ (v.sub center).dot normal = 0 := by
  intro v hv
  simp only [create_flat_disc] at hv
  by_cases hn0 : normal.norm = 0
  · -- zero normal: fall back to the Z axis, no rotation
    rw [if_pos hn0, if_pos rfl] at hv
    simp only [discBaseVertices, List.map_cons, List.tail_cons, List.mem_map] at hv
    obtain ⟨w, hw, rfl⟩ := hv
    obtain ⟨hwsq, hwz⟩ := circlePoints_mem radius res hw
    obtain ⟨hnx, hny, hnz⟩ := norm_eq_zero3 hn0
    constructor
    · rw [dist3, add_sub_cancel3, RVec3.norm, hwsq, Real.sqrt_sq hr.le]
    · rw [add_sub_cancel3, RVec3.dot, hnx, hny, hnz]
      ring
  · rw [if_neg hn0] at hv
    have hNpos : 0 < normal.norm := lt_of_le_of_ne (Real.sqrt_nonneg _) (Ne.symm hn0)
    have hNsq := norm_sq3 normal
    have huu : (RVec3.smul (1 / normal.norm) normal).x ^ 2 +
        (RVec3.smul (1 / normal.norm) normal).y ^ 2 +
        (RVec3.smul (1 / normal.norm) normal).z ^ 2 = 1 := by
      simp only [RVec3.smul]
      field_simp
      linarith [hNsq]
    by_cases hzz : RVec3.smul (1 / normal.norm) normal = zAxis
    · -- the normalised normal is exactly the Z axis: no rotation applied
      rw [if_pos hzz] at hv
      simp only [discBaseVertices, List.map_cons, List.tail_cons, List.mem_map] at hv
      obtain ⟨w, hw, rfl⟩ := hv
      obtain ⟨hwsq, hwz⟩ := circlePoints_mem radius res hw
      have hnx : normal.x = 0 := by
        have := congrArg RVec3.x hzz
        simp only [RVec3.smul, zAxis] at this
        field_simp at this
        exact this
      have hny : normal.y = 0 := by
        have := congrArg RVec3.y hzz
        simp only [RVec3.smul, zAxis] at this
        field_simp at this
        exact this
      constructor
      · rw [dist3, add_sub_cancel3, RVec3.norm, hwsq, Real.sqrt_sq hr.le]
      · rw [add_sub_cancel3, RVec3.dot, hnx, hny, hwz]
        ring
    · -- the generic rotated case
      rw [if_neg hzz] at hv
      simp only [discBaseVertices, List.map_cons, List.tail_cons, List.map_map,
        List.mem_map, Function.comp] at hv
      obtain ⟨w, hw, rfl⟩ := hv
      obtain ⟨hwsq, hwz⟩ := circlePoints_mem radius res hw
      obtain ⟨hRz, hRdot⟩ := discRotationMat_spec _ huu hzz
      constructor
      · rw [dist3, add_sub_cancel3]
        have hself := hRdot w w
        rw [dot_self_eq w, hwsq] at hself
        rw [RVec3.norm]
        rw [show ((discRotationMat (RVec3.smul (1 / normal.norm) normal)).mulVec w).x ^ 2 +
            ((discRotationMat (RVec3.smul (1 / normal.norm) normal)).mulVec w).y ^ 2 +
            ((discRotationMat (RVec3.smul (1 / normal.norm) normal)).mulVec w).z ^ 2 =
            radius ^ 2 by rw [← dot_self_eq]; exact hself]
        exact Real.sqrt_sq hr.le
      · rw [add_sub_cancel3]
        have hsm : normal = RVec3.smul normal.norm (RVec3.smul (1 / normal.norm) normal) := by
          refine RVec3.ext3 ?_ ?_ ?_ <;> (simp only [RVec3.smul]; field_simp)
        have hdz := hRdot w zAxis
        rw [hRz] at hdz
        have hlin : ∀ (a b : RVec3) (cc : ℝ), a.dot (RVec3.smul cc b) = cc * (a.dot b) := by
          intro a b cc; simp [RVec3.dot, RVec3.smul]; ring
        have e0 := hlin ((discRotationMat (RVec3.smul (1 / normal.norm) normal)).mulVec w)
          (RVec3.smul (1 / normal.norm) normal) normal.norm
        rw [← hsm] at e0
        rw [e0, hdz]
        simp only [RVec3.dot, zAxis]
        rw [hwz]
        ring

/-- Witness for the amended C4 at a generic normal `(1, 2, 2)`. -/
theorem C4_witness :
    0 < (1 : ℝ) ∧
    ∀ v ∈ (create_flat_disc ⟨0, 0, 0⟩ 1 ⟨1, 2, 2⟩ 5).vertices.tail,
      dist3 v ⟨0, 0, 0⟩ = 1 ∧ (v.sub ⟨0, 0, 0⟩).dot ⟨1, 2, 2⟩ = 0 :=
  ⟨by norm_num, C4_disc_vertices_on_circle ⟨0, 0, 0⟩ 1 ⟨1, 2, 2⟩ 5 (by norm_num)⟩

/-- **C4 (counterexample).** The claim as stated — *every* vertex of the
disc at exactly `radius` distance from `center` — fails: the mesh's first
vertex is the fan centre, which lies at `center` itself (distance 0, not
the radius 1 here). -/
theorem C4_counterexample :
    ¬ (∀ v ∈ (create_flat_disc ⟨0, 0, 0⟩ 1 ⟨0, 0, 1⟩ 3).vertices,
        dist3 v ⟨0, 0, 0⟩ = 1 ∧ (v.sub ⟨0, 0, 0⟩).dot ⟨0, 0, 1⟩ = 0) := by
  intro h
  have hn : (⟨0, 0, 1⟩ : RVec3).norm = 1 := by
    rw [RVec3.norm]
    norm_num
  have hmem : (⟨0, 0, 0⟩ : RVec3) ∈ (create_flat_disc ⟨0, 0, 0⟩ 1 ⟨0, 0, 1⟩ 3).vertices := by
    simp only [create_flat_disc]
    rw [if_neg (show ¬(⟨0, 0, 1⟩ : RVec3).norm = 0 by rw [hn]; norm_num)]
    rw [if_pos (show RVec3.smul (1 / (⟨0, 0, 1⟩ : RVec3).norm) ⟨0, 0, 1⟩ = zAxis by
      rw [hn]
      exact RVec3.ext3 (by norm_num [RVec3.smul, zAxis]) (by norm_num [RVec3.smul, zAxis])
        (by norm_num [RVec3.smul, zAxis]))]
    simp only [discBaseVertices, List.map_cons, List.mem_cons]
    left
    exact (RVec3.ext3 (by norm_num [RVec3.add]) (by norm_num [RVec3.add])
      (by norm_num [RVec3.add])).symm
  have h1 := (h _ hmem).1
  rw [show dist3 (⟨0, 0, 0⟩ : RVec3) ⟨0, 0, 0⟩ = 0 by
    rw [dist3, RVec3.sub, RVec3.norm]; norm_num] at h1
  norm_num at h1

/-! ### Claim C3: labelling of out-of-range points -/

theorem npRound_intCast (n : ℤ) : npRound (n : ℝ) = n := by
  unfold npRound
  rw [if_neg]
  · exact round_intCast n
  · rw [Int.fract_intCast]
    norm_num

/-- A 1×1×1 volume whose only voxel carries label 1. -/
def vol111 : Volume := ⟨1, 1, 1, fun _ => 1⟩

/-- The identity affine. -/
def idAffine : Affine4 := ⟨Mat3.id3, ⟨0, 0, 0⟩⟩

theorem idAffine_apply (p : RVec3) : idAffine.apply p = p := by
  refine RVec3.ext3 ?_ ?_ ?_ <;>
    simp [idAffine, Affine4.apply, Mat3.mulVec, Mat3.id3, RVec3.add]

theorem roundedVoxel_id_500 : roundedVoxel idAffine ⟨5, 0, 0⟩ = (5, 0, 0) := by
  simp only [roundedVoxel, idAffine_apply]
  have h5 : npRound ((5 : ℝ)) = 5 := by
    rw [show (5 : ℝ) = ((5 : ℤ) : ℝ) by norm_num, npRound_intCast]
  have h0 : npRound ((0 : ℝ)) = 0 := by
    rw [show (0 : ℝ) = ((0 : ℤ) : ℝ) by norm_num, npRound_intCast]
  rw [h5, h0]

/-- **C3 (counterexample).** The claim — out-of-range points get label 0 —
fails: with the identity affine and a 1×1×1 volume whose single voxel
carries label 1, the point `(5, 0, 0)` rounds to voxel `(5, 0, 0)`, far
outside the index range, yet is clamped to `(0, 0, 0)` and labelled `1`. -/
theorem C3_counterexample :
    ¬ inRangeVox vol111 (roundedVoxel idAffine ⟨5, 0, 0⟩) ∧
    labelPoint vol111 idAffine ⟨5, 0, 0⟩ = 1 := by
  constructor
  · rw [roundedVoxel_id_500]
    decide
  · rfl

/-- **C3 (amended).** A point whose rounded voxel coordinate lies outside
the index range is **clamped** to the nearest valid index and receives the
label stored at that clamped voxel (0 only when the boundary voxel is
background); the clamped index is always a valid index of a nonempty
volume. -/
theorem C3_out_of_range_clamped (vol : Volume) (invA : Affine4) (p : RVec3)
    (hout : ¬ inRangeVox vol (roundedVoxel invA p))
    (h0 : 0 < vol.d0) (h1 : 0 < vol.d1) (h2 : 0 < vol.d2) :
    labelPoint vol invA p = vol.data (clampVox vol (roundedVoxel invA p)) ∧
    inRangeVox vol (clampVox vol (roundedVoxel invA p)) := by
  refine ⟨rfl, ?_⟩
  obtain ⟨a, b, c⟩ := roundedVoxel invA p
  unfold inRangeVox clampVox clampIdx
  dsimp only
  omega

/-- Witness for the amended C3 at the concrete out-of-range input. -/
theorem C3_witness :
    (¬ inRangeVox vol111 (roundedVoxel idAffine ⟨5, 0, 0⟩) ∧
      0 < vol111.d0 ∧ 0 < vol111.d1 ∧ 0 < vol111.d2) ∧
    (labelPoint vol111 idAffine ⟨5, 0, 0⟩ =
        vol111.data (clampVox vol111 (roundedVoxel idAffine ⟨5, 0, 0⟩)) ∧
      inRangeVox vol111 (clampVox vol111 (roundedVoxel idAffine ⟨5, 0, 0⟩))) :=
  ⟨⟨by rw [roundedVoxel_id_500]; decide, by decide, by decide, by decide⟩,
    C3_out_of_range_clamped vol111 idAffine ⟨5, 0, 0⟩
      (by rw [roundedVoxel_id_500]; decide) (by decide) (by decide) (by decide)⟩

/-! ### Orchestrator bookkeeping lemmas -/

theorem lookup_append_single_ne (l : List (String × VesselData)) (k name : String)
    (r : VesselData) (h : k ≠ name) : (l ++ [(name, r)]).lookup k = l.lookup k := by
  induction l with
  | nil => simp [List.lookup, beq_eq_false_iff_ne.mpr h]
  | cons a l ih =>
    simp only [List.cons_append, List.lookup]
    by_cases hk : k == a.1
    · simp [hk]
    · simp only [hk]
      exact ih

theorem lookup_append_single_self (l : List (String × VesselData)) (name : String)
    (r : VesselData) (h : l.lookup name = none) :
    (l ++ [(name, r)]).lookup name = some r := by
  induction l with
  | nil => simp [List.lookup]
  | cons a l ih =>
    simp only [List.lookup] at h
    by_cases hk : name == a.1
    · rw [hk] at h
      simp at h
    · simp only [hk] at h
      simp only [List.cons_append, List.lookup, hk]
      exact ih h

theorem stepLabel_preserves (ext : ExtLib) (vol : Volume) (A : Affine4)
    (points : Option (List RVec3)) (pls : Option (List ℕ)) (dest pid : String)
    (st : List (String × VesselData) × List String) (li : ℕ) (k : String)
    (h : k ≠ nameOf li) :
    (stepLabel ext vol A points pls dest pid st li).1.lookup k = st.1.lookup k := by
  unfold stepLabel
  by_cases hm : ¬ (maskOf vol li).Nonempty
  · rw [if_pos hm]
  · rw [if_neg hm]
    dsimp only
    split
    · exact lookup_append_single_ne _ _ _ _ h
    · rfl

theorem stepLabel_adds_self (ext : ExtLib) (vol : Volume) (A : Affine4)
    (points : Option (List RVec3)) (pls : Option (List ℕ)) (dest pid : String)
    (st : List (String × VesselData) × List String) (li : ℕ)
    (hnew : st.1.lookup (nameOf li) = none) :
    (stepLabel ext vol A points pls dest pid st li).1.lookup (nameOf li) =
      expectedEntry ext vol A points pls dest pid li := by
  unfold stepLabel expectedEntry
  by_cases hm : ¬ (maskOf vol li).Nonempty
  · rw [if_pos hm, if_pos hm]
    exact hnew
  · rw [if_neg hm, if_neg hm]
    dsimp only
    split
    · next r heq =>
      rw [heq, tryResult]
      exact lookup_append_single_self _ _ _ hnew
    · next e heq =>
      rw [heq, tryResult]
      exact hnew

theorem stepLabel_log_extends (ext : ExtLib) (vol : Volume) (A : Affine4)
    (points : Option (List RVec3)) (pls : Option (List ℕ)) (dest pid : String)
    (st : List (String × VesselData) × List String) (li : ℕ) :
    ∃ t, (stepLabel ext vol A points pls dest pid st li).2 = st.2 ++ t := by
  unfold stepLabel
  by_cases hm : ¬ (maskOf vol li).Nonempty
  · rw [if_pos hm]
    exact ⟨_, rfl⟩
  · rw [if_neg hm]
    dsimp only
    split
    · exact ⟨_, by rw [List.append_assoc]⟩
    · exact ⟨_, by rw [List.append_assoc, List.append_assoc]⟩

theorem stepLabel_error_mem (ext : ExtLib) (vol : Volume) (A : Affine4)
    (points : Option (List RVec3)) (pls : Option (List ℕ)) (dest pid : String)
    (st : List (String × VesselData) × List String) (li : ℕ) (e : String)
    (hm : (maskOf vol li).Nonempty)
    (herr : (processVessel ext A li (nameOf li) (maskOf vol li) points pls dest pid).2 =
      .error e) :
    ("ERROR processing " ++ nameOf li ++ ": " ++ e) ∈
      (stepLabel ext vol A points pls dest pid st li).2 := by
  unfold stepLabel
  rw [if_neg (not_not_intro hm)]
  dsimp only
  rw [herr]
  dsimp only
  simp

theorem nameOf_injective_on_labels (li lj : ℕ) (hi : li = 1 ∨ li = 2 ∨ li = 3)
    (hj : lj = 1 ∨ lj = 2 ∨ lj = 3) (hne : li ≠ lj) : nameOf li ≠ nameOf lj := by
  rcases hi with rfl | rfl | rfl <;> rcases hj with rfl | rfl | rfl <;>
    first
      | exact absurd rfl hne
      | decide

/-- The orchestrator's results mapping, per label: exactly what the loop
leaves behind for that label. -/
theorem analysis_lookup (ext : ExtLib) (vol : Volume) (A : Affine4) (invA : Affine4)
    (points : Option (List RVec3)) (dest pid : String) (li : ℕ)
    (hli : li = 1 ∨ li = 2 ∨ li = 3) :
    (enhanced_vessel_reconstruction_analysis ext vol A invA points dest pid).vessels.lookup
        (nameOf li) =
      expectedEntry ext vol A points (points.map (labelPoints vol invA)) dest pid li := by
  unfold enhanced_vessel_reconstruction_analysis
  dsimp only
  rcases hli with rfl | rfl | rfl
  · rw [stepLabel_preserves _ _ _ _ _ _ _ _ 3 _
        (nameOf_injective_on_labels 1 3 (by decide) (by decide) (by decide)),
      stepLabel_preserves _ _ _ _ _ _ _ _ 2 _
        (nameOf_injective_on_labels 1 2 (by decide) (by decide) (by decide)),
      stepLabel_adds_self _ _ _ _ _ _ _ _ 1 (by simp [List.lookup])]
  · rw [stepLabel_preserves _ _ _ _ _ _ _ _ 3 _
        (nameOf_injective_on_labels 2 3 (by decide) (by decide) (by decide)),
      stepLabel_adds_self _ _ _ _ _ _ _ _ 2 ?_]
    rw [stepLabel_preserves _ _ _ _ _ _ _ _ 1 _
        (nameOf_injective_on_labels 2 1 (by decide) (by decide) (by decide))]
    simp [List.lookup]
  · rw [stepLabel_adds_self _ _ _ _ _ _ _ _ 3 ?_]
    rw [stepLabel_preserves _ _ _ _ _ _ _ _ 2 _
        (nameOf_injective_on_labels 3 2 (by decide) (by decide) (by decide)),
      stepLabel_preserves _ _ _ _ _ _ _ _ 1 _
        (nameOf_injective_on_labels 3 1 (by decide) (by decide) (by decide))]
    simp [List.lookup]

/-- Log membership is preserved by a loop iteration (the log only grows). -/
theorem mem_stepLabel_log (ext : ExtLib) (vol : Volume) (A : Affine4)
    (points : Option (List RVec3)) (pls : Option (List ℕ)) (dest pid : String)
    (st : List (String × VesselData) × List String) (li : ℕ) (x : String)
    (hx : x ∈ st.2) : x ∈ (stepLabel ext vol A points pls dest pid st li).2 := by
  obtain ⟨t, ht⟩ := stepLabel_log_extends ext vol A points pls dest pid st li
  rw [ht]
  exact List.mem_append_left _ hx

/-- An error status emitted by any of the three loop iterations survives
into the final log. -/
theorem analysis_error_in_log (ext : ExtLib) (vol : Volume) (A : Affine4) (invA : Affine4)
    (points : Option (List RVec3)) (dest pid : String) (li : ℕ) (e : String)
    (hli : li = 1 ∨ li = 2 ∨ li = 3)
    (hm : (maskOf vol li).Nonempty)
    (herr : (processVessel ext A li (nameOf li) (maskOf vol li) points
        (points.map (labelPoints vol invA)) dest pid).2 = .error e) :
    ("ERROR processing " ++ nameOf li ++ ": " ++ e) ∈
      (enhanced_vessel_reconstruction_analysis ext vol A invA points dest pid).log := by
  unfold enhanced_vessel_reconstruction_analysis
  dsimp only
  rcases hli with rfl | rfl | rfl
  · apply List.mem_append_left
    apply mem_stepLabel_log
    apply mem_stepLabel_log
    exact stepLabel_error_mem ext vol A points (points.map (labelPoints vol invA))
      dest pid _ 1 e hm herr
  · apply List.mem_append_left
    apply mem_stepLabel_log
    exact stepLabel_error_mem ext vol A points (points.map (labelPoints vol invA))
      dest pid _ 2 e hm herr
  · apply List.mem_append_left
    exact stepLabel_error_mem ext vol A points (points.map (labelPoints vol invA))
      dest pid _ 3 e hm herr

/-! ### Claim C7: empty masks are skipped -/

/-- **C7.** For every label in {1, 2, 3} whose mask is empty, the analysis
creates no entry for the corresponding vessel name and does not raise (the
embedding is total); every other label's entry is exactly what its own
processing produces — the remaining labels are still processed. -/
theorem C7_empty_mask_no_entry (ext : ExtLib) (vol : Volume) (A invA : Affine4)
    (points : Option (List RVec3)) (dest pid : String) (li : ℕ)
    (hli : li = 1 ∨ li = 2 ∨ li = 3) (hempty : ¬ (maskOf vol li).Nonempty) :
    (enhanced_vessel_reconstruction_analysis ext vol A invA points dest pid).vessels.lookup
        (nameOf li) = none ∧
    ∀ lj, (lj = 1 ∨ lj = 2 ∨ lj = 3) → lj ≠ li →
      (enhanced_vessel_reconstruction_analysis ext vol A invA points dest pid).vessels.lookup
          (nameOf lj) =
        expectedEntry ext vol A points (points.map (labelPoints vol invA)) dest pid lj := by
  constructor
  · rw [analysis_lookup ext vol A invA points dest pid li hli, expectedEntry, if_pos hempty]
  · intro lj hlj _
    exact analysis_lookup ext vol A invA points dest pid lj hlj

/-- A concrete external-library instance used by witnesses: identity
morphology, one-fragment labelling, unit distance transform, a one-vertex
marching-cubes output. -/
noncomputable def extW : ExtLib where
  binaryOpening := fun m _ => m
  skeletonize := fun m => m
  labelComponents := fun s => [s]
  edt := fun _ _ _ => 1
  marchingCubesVerts := fun _ => [⟨0, 0, 0⟩]
  marchingCubesFaces := fun _ => []
  cleanMesh := fun m => m
  meshSurfaceArea := fun _ => 0
  meshVolume := fun _ => 0
  meshIsWatertight := fun _ => false
  meanDistPointsToMesh := fun _ _ => 0
  meanDistVertsToPoints := fun _ _ => 0

/-- A 1×1×2 volume carrying labels 1 and 2 but no voxel of label 3. -/
def volC7 : Volume := ⟨1, 1, 2, fun v => if v.2.2 = 0 then 1 else 2⟩

/-- Witness for C7: label 3 ("Right Iliac Artery") is absent from `volC7`. -/
theorem C7_witness :
    (((3 : ℕ) = 1 ∨ (3 : ℕ) = 2 ∨ (3 : ℕ) = 3) ∧ ¬ (maskOf volC7 3).Nonempty) ∧
    ((enhanced_vessel_reconstruction_analysis extW volC7 idAffine idAffine none
        "o" "p").vessels.lookup (nameOf 3) = none ∧
      ∀ lj, (lj = 1 ∨ lj = 2 ∨ lj = 3) → lj ≠ 3 →
        (enhanced_vessel_reconstruction_analysis extW volC7 idAffine idAffine none
            "o" "p").vessels.lookup (nameOf lj) =
          expectedEntry extW volC7 idAffine none (Option.map (labelPoints volC7 idAffine) none)
            "o" "p" lj) :=
  ⟨⟨by decide, by decide⟩,
    C7_empty_mask_no_entry extW volC7 idAffine idAffine none "o" "p" 3 (by decide) (by decide)⟩

/-! ### Evaluating `compute_centerline_metrics` -/

/-- On a nonempty single-fragment skeleton with at least two voxels, the
function returns normally with all path metrics still `nan` and no
visualisation data. -/
theorem ccm_single_ok (ext : ExtLib) (mask : Mask) (A : Affine4) (name dest pid : String)
    (F : Mask)
    (hm : mask.Nonempty) (hc : (cleanedMaskOf ext mask A).Nonempty)
    (hS : (skeletonOf ext mask A).Nonempty)
    (hcomp : ext.labelComponents (skeletonOf ext mask A) = [F])
    (hcard : 2 ≤ (skeletonOf ext mask A).card) :
    ∃ t : RVec3,
      compute_tangent (skeletonMMOf ext mask A)
          (npArgmaxR (diametersProfile ext mask A)) = some t ∧
      compute_centerline_metrics ext mask A name dest pid = .ok (some
        { metrics :=
            { diameters := npStats (diametersProfile ext mask A),
              len := PyVal.nan, tortuosity := PyVal.nan, quality := PyVal.nan,
              max_diameter_location :=
                (skeletonMMOf ext mask A).getD
                  (npArgmaxR (diametersProfile ext mask A)) ⟨0, 0, 0⟩,
              tangent_at_max_diameter_location := t },
          vis_data := ⟨none, none⟩,
          plot_path := plot_diameter_path dest pid name }) := by
  have hc2 : (cleanedMaskOf ext mask A).Nonempty := hc
  have hS2 : (ext.skeletonize (cleanedMaskOf ext mask A)).Nonempty := hS
  have hcomp2 : ext.labelComponents (ext.skeletonize (cleanedMaskOf ext mask A)) = [F] := hcomp
  have hlenvox : (argwhere (ext.skeletonize (cleanedMaskOf ext mask A))).length =
      (skeletonOf ext mask A).card := argwhere_length _
  have hmm : 2 ≤ ((argwhere (ext.skeletonize (cleanedMaskOf ext mask A))).map
      (fun v => A.apply (voxToR v))).length := by
    rw [List.length_map, hlenvox]; exact hcard
  have hdi : ((argwhere (ext.skeletonize (cleanedMaskOf ext mask A))).map
      (fun v => ext.edt mask (spacingVec A) v * 2)).length =
      (skeletonOf ext mask A).card := by rw [List.length_map, hlenvox]
  have hdne : ((argwhere (ext.skeletonize (cleanedMaskOf ext mask A))).map
      (fun v => ext.edt mask (spacingVec A) v * 2)) ≠ [] := by
    intro h
    rw [h] at hdi
    simp only [List.length_nil] at hdi
    omega
  have hidx : npArgmaxR ((argwhere (ext.skeletonize (cleanedMaskOf ext mask A))).map
      (fun v => ext.edt mask (spacingVec A) v * 2)) <
      ((argwhere (ext.skeletonize (cleanedMaskOf ext mask A))).map
      (fun v => A.apply (voxToR v))).length := by
    have h1 := npArgmaxR_lt_length _ hdne
    rw [hdi] at h1
    rw [List.length_map, hlenvox]
    exact h1
  have htan := compute_tangent_isSome _ _ hmm hidx
  obtain ⟨t, ht⟩ := Option.isSome_iff_exists.mp htan
  refine ⟨t, ht, ?_⟩
  simp only [compute_centerline_metrics]
  rw [if_neg (not_not_intro hm)]
  rw [if_neg (not_not_intro hc2)]
  rw [if_neg (not_not_intro hS2)]
  rw [hcomp2]
  rw [if_neg (show ¬([F].length = 0) by simp)]
  rw [if_neg (show ¬(((argwhere (ext.skeletonize (cleanedMaskOf ext mask A))).map
      (fun v => ext.edt mask (spacingVec A) v * 2)).length = 0) by
    rw [hdi]; omega)]
  rw [ht]
  dsimp only
  rw [if_neg (show ¬(1 < [F].length) by simp)]
  rfl

/-- On a single-voxel skeleton, `compute_tangent` is asked for `pts[1]` of a
one-point list and the whole computation raises. -/
theorem ccm_singleton_error (ext : ExtLib) (mask : Mask) (A : Affine4)
    (name dest pid : String) (v : Vox)
    (hm : mask.Nonempty) (hc : (cleanedMaskOf ext mask A).Nonempty)
    (hSv : ext.skeletonize (cleanedMaskOf ext mask A) = {v})
    (hcomp : ext.labelComponents ({v} : Mask) ≠ []) :
    compute_centerline_metrics ext mask A name dest pid =
      .error "IndexError: index 1 is out of bounds" := by
  simp only [compute_centerline_metrics]
  rw [if_neg (not_not_intro hm)]
  rw [if_neg (not_not_intro hc)]
  rw [hSv]
  rw [if_neg (not_not_intro (Finset.singleton_nonempty v))]
  rw [if_neg (show ¬((ext.labelComponents ({v} : Mask)).length = 0) from
    fun h => hcomp (List.length_eq_zero.mp h))]
  rw [show argwhere ({v} : Mask) = [v] from Finset.sort_singleton voxLe v]
  simp only [List.map_cons, List.map_nil]
  rw [if_neg (show ¬(([ext.edt mask (spacingVec A) v * 2]).length = 0) by simp)]
  rw [show npArgmaxR [ext.edt mask (spacingVec A) v * 2] = 0 by
    simp [npArgmaxR, npArgmaxRAux]]
  rw [compute_tangent_singleton]

/-- Projection: the stored mesh of a vessel record, `none` on an exception. -/
def meshOfResult : Except String VesselData → Option SerializableMesh
  | .ok r => r.mesh
  | .error _ => none

/-- If the centerline step raises, the whole `try` block raises with the
same exception. -/
theorem processVessel_error (ext : ExtLib) (A : Affine4) (li : ℕ)
    (name : String) (mask : Mask) (points : Option (List RVec3))
    (pls : Option (List ℕ)) (dest pid e : String)
    (herr : compute_centerline_metrics ext mask A name dest pid = .error e) :
    (processVessel ext A li name mask points pls dest pid).2 = .error e := by
  simp only [processVessel]
  rw [herr]

/-- If the centerline step returns (with any value), the `try` block
completes and the record's `mesh` field is the serializable copy of the
mesh built from the **local** (pad-corrected, non-world) vertices. -/
theorem processVessel_ok_mesh (ext : ExtLib) (A : Affine4) (li : ℕ)
    (name : String) (mask : Mask) (dest pid : String) (ca : Option CenterlineResult)
    (hok : compute_centerline_metrics ext mask A name dest pid = .ok ca) :
    meshOfResult (processVessel ext A li name mask none none dest pid).2 =
      some ⟨storedMeshVertices ext A mask, ext.marchingCubesFaces mask⟩ := by
  simp only [processVessel]
  rw [hok]
  cases ca with
  | none => rfl
  | some c =>
    rcases c with ⟨met, ⟨vp, vc⟩, pp⟩
    cases vp <;> cases vc <;> rfl

/-! ### Claim C6: single-fragment skeletons skip the graph search -/

/-- **C6 (amended).** For every mask whose skeleton forms a single
connected fragment **of at least two voxels**, `compute_centerline_metrics`
performs no graph search — the fragment-graph visualisation stays empty and
length, tortuosity, and quality are reported as `nan` (an "absent"
representation distinct from the value 0) — while the diameter profile and
its statistics are still computed directly over the skeleton voxels. -/
theorem C6_single_fragment_no_graph_search (ext : ExtLib) (mask : Mask) (A : Affine4)
    (name dest pid : String) (F : Mask)
    (hm : mask.Nonempty) (hc : (cleanedMaskOf ext mask A).Nonempty)
    (hS : (skeletonOf ext mask A).Nonempty)
    (hcomp : ext.labelComponents (skeletonOf ext mask A) = [F])
    (hcard : 2 ≤ (skeletonOf ext mask A).card) :
    ∃ r : CenterlineResult,
      compute_centerline_metrics ext mask A name dest pid = .ok (some r) ∧
      r.metrics.len = PyVal.nan ∧
      r.metrics.tortuosity = PyVal.nan ∧
      r.metrics.quality = PyVal.nan ∧
      PyVal.nan ≠ PyVal.val 0 ∧
      r.vis_data.points = none ∧
      r.vis_data.connections = none ∧
      r.metrics.diameters = npStats (diametersProfile ext mask A) ∧
      (diametersProfile ext mask A).length = (skeletonVoxelsOf ext mask A).length := by
  obtain ⟨t, _, heq⟩ := ccm_single_ok ext mask A name dest pid F hm hc hS hcomp hcard
  exact ⟨_, heq, rfl, rfl, rfl, fun h => PyVal.noConfusion h, rfl, rfl, rfl,
    by simp [diametersProfile]⟩

/-- A two-voxel mask (its own skeleton under the identity externals). -/
def maskTwo : Mask := {((0 : ℤ), (0 : ℤ), (0 : ℤ)), ((0 : ℤ), (0 : ℤ), (1 : ℤ))}

/-- Witness for the amended C6 on a two-voxel single fragment. -/
theorem C6_witness :
    ((maskTwo : Mask).Nonempty ∧ (cleanedMaskOf extW maskTwo idAffine).Nonempty ∧
      (skeletonOf extW maskTwo idAffine).Nonempty ∧
      extW.labelComponents (skeletonOf extW maskTwo idAffine) = [maskTwo] ∧
      2 ≤ (skeletonOf extW maskTwo idAffine).card) ∧
    (∃ r : CenterlineResult,
      compute_centerline_metrics extW maskTwo idAffine "Vessel" "o" "p" = .ok (some r) ∧
      r.metrics.len = PyVal.nan ∧
      r.metrics.tortuosity = PyVal.nan ∧
      r.metrics.quality = PyVal.nan ∧
      PyVal.nan ≠ PyVal.val 0 ∧
      r.vis_data.points = none ∧
      r.vis_data.connections = none ∧
      r.metrics.diameters = npStats (diametersProfile extW maskTwo idAffine) ∧
      (diametersProfile extW maskTwo idAffine).length =
        (skeletonVoxelsOf extW maskTwo idAffine).length) :=
  ⟨⟨by decide, by decide, by decide, rfl, by decide⟩,
    C6_single_fragment_no_graph_search extW maskTwo idAffine "Vessel" "o" "p" maskTwo
      (by decide) (by decide) (by decide) rfl (by decide)⟩

/-- A single-voxel mask. -/
def maskOne : Mask := {((0 : ℤ), (0 : ℤ), (0 : ℤ))}

/-- **C6 (counterexample).** For a mask whose skeleton is a single
connected fragment of just one voxel, the claim fails: instead of reporting
metrics with the path fields absent, `compute_centerline_metrics` raises an
`IndexError` (from `compute_tangent` reading `pts[1]`) and returns nothing
at all. -/
theorem C6_counterexample :
    extW.labelComponents (skeletonOf extW maskOne idAffine) = [maskOne] ∧
    compute_centerline_metrics extW maskOne idAffine "Vessel" "o" "p" =
      .error "IndexError: index 1 is out of bounds" ∧
    ∀ o : Option CenterlineResult,
      compute_centerline_metrics extW maskOne idAffine "Vessel" "o" "p" ≠ .ok o := by
  have herr := ccm_singleton_error extW maskOne idAffine "Vessel" "o" "p"
    ((0 : ℤ), (0 : ℤ), (0 : ℤ)) (by decide) (by decide) rfl (by decide)
  refine ⟨rfl, herr, ?_⟩
  intro o h
  rw [herr] at h
  exact Except.noConfusion h

/-! ### Claim C10: a one-voxel skeleton raises and the vessel is dropped -/

/-- **C10.** `compute_tangent(pts, 0)` reads `pts[1]` unconditionally, so
when label 1's skeleton reduces to exactly one voxel,
`compute_centerline_metrics` raises an index-out-of-bounds error instead of
returning metrics, and under the orchestrator's per-vessel catch the
vessel's record — mesh included — is absent from the result. -/
theorem C10_singleton_skeleton_raises (ext : ExtLib) (vol : Volume) (A invA : Affine4)
    (points : Option (List RVec3)) (dest pid : String) (v : Vox)
    (hm : (maskOf vol 1).Nonempty)
    (hc : (cleanedMaskOf ext (maskOf vol 1) A).Nonempty)
    (hSv : skeletonOf ext (maskOf vol 1) A = {v})
    (hcomp : ext.labelComponents ({v} : Mask) ≠ []) :
    (∀ p : RVec3, compute_tangent [p] 0 = none) ∧
    compute_centerline_metrics ext (maskOf vol 1) A (nameOf 1) dest pid =
      .error "IndexError: index 1 is out of bounds" ∧
    (enhanced_vessel_reconstruction_analysis ext vol A invA points dest pid).vessels.lookup
      (nameOf 1) = none := by
  have herr := ccm_singleton_error ext (maskOf vol 1) A (nameOf 1) dest pid v hm hc hSv hcomp
  refine ⟨compute_tangent_singleton, herr, ?_⟩
  rw [analysis_lookup ext vol A invA points dest pid 1 (Or.inl rfl), expectedEntry,
    if_neg (not_not_intro hm),
    processVessel_error ext A 1 (nameOf 1) (maskOf vol 1) points
      (points.map (labelPoints vol invA)) dest pid _ herr]
  rfl

/-- Witness for C10: `vol111` puts label 1 on a single voxel. -/
theorem C10_witness :
    ((maskOf vol111 1).Nonempty ∧ (cleanedMaskOf extW (maskOf vol111 1) idAffine).Nonempty ∧
      skeletonOf extW (maskOf vol111 1) idAffine = {((0 : ℤ), (0 : ℤ), (0 : ℤ))} ∧
      extW.labelComponents ({((0 : ℤ), (0 : ℤ), (0 : ℤ))} : Mask) ≠ []) ∧
    ((∀ p : RVec3, compute_tangent [p] 0 = none) ∧
      compute_centerline_metrics extW (maskOf vol111 1) idAffine (nameOf 1) "o" "p" =
        .error "IndexError: index 1 is out of bounds" ∧
      (enhanced_vessel_reconstruction_analysis extW vol111 idAffine idAffine none
          "o" "p").vessels.lookup (nameOf 1) = none) :=
  ⟨⟨by decide, by decide, by decide, by decide⟩,
    C10_singleton_skeleton_raises extW vol111 idAffine idAffine none "o" "p"
      ((0 : ℤ), (0 : ℤ), (0 : ℤ)) (by decide) (by decide) (by decide) (by decide)⟩

/-! ### Claim C2: exceptions discard a vessel's partial results -/

/-- **C2 (amended).** If an exception is raised partway through one
vessel's processing, the analysis result contains **no** entry for that
vessel — the partial results computed before the failure are discarded,
because the assignment into the results mapping sits inside the `try` —
while the failure is reported through the status callback and processing
continues: every other label's entry is exactly what its own processing
produces. -/
theorem C2_exception_discards_partial (ext : ExtLib) (vol : Volume) (A invA : Affine4)
    (points : Option (List RVec3)) (dest pid : String) (li : ℕ) (e : String)
    (hli : li = 1 ∨ li = 2 ∨ li = 3)
    (hm : (maskOf vol li).Nonempty)
    (herr : (processVessel ext A li (nameOf li) (maskOf vol li) points
        (points.map (labelPoints vol invA)) dest pid).2 = .error e) :
    (enhanced_vessel_reconstruction_analysis ext vol A invA points dest pid).vessels.lookup
        (nameOf li) = none ∧
    ("ERROR processing " ++ nameOf li ++ ": " ++ e) ∈
      (enhanced_vessel_reconstruction_analysis ext vol A invA points dest pid).log ∧
    ∀ lj, (lj = 1 ∨ lj = 2 ∨ lj = 3) → lj ≠ li →
      (enhanced_vessel_reconstruction_analysis ext vol A invA points dest pid).vessels.lookup
          (nameOf lj) =
        expectedEntry ext vol A points (points.map (labelPoints vol invA)) dest pid lj := by
  refine ⟨?_, analysis_error_in_log ext vol A invA points dest pid li e hli hm herr,
    fun lj hlj _ => analysis_lookup ext vol A invA points dest pid lj hlj⟩
  rw [analysis_lookup ext vol A invA points dest pid li hli, expectedEntry,
    if_neg (not_not_intro hm), herr]
  rfl

/-- Witness for the amended C2: label 1's centerline stage raises on
`vol111` (single-voxel skeleton), so its entry is dropped and the error is
logged. -/
theorem C2_witness :
    (((1 : ℕ) = 1 ∨ (1 : ℕ) = 2 ∨ (1 : ℕ) = 3) ∧ (maskOf vol111 1).Nonempty ∧
      (processVessel extW idAffine 1 (nameOf 1) (maskOf vol111 1) none
          (Option.map (labelPoints vol111 idAffine) none) "o" "p").2 =
        .error "IndexError: index 1 is out of bounds") ∧
    ((enhanced_vessel_reconstruction_analysis extW vol111 idAffine idAffine none
        "o" "p").vessels.lookup (nameOf 1) = none ∧
      ("ERROR processing " ++ nameOf 1 ++ ": " ++ "IndexError: index 1 is out of bounds") ∈
        (enhanced_vessel_reconstruction_analysis extW vol111 idAffine idAffine none
          "o" "p").log ∧
      ∀ lj, (lj = 1 ∨ lj = 2 ∨ lj = 3) → lj ≠ 1 →
        (enhanced_vessel_reconstruction_analysis extW vol111 idAffine idAffine none
            "o" "p").vessels.lookup (nameOf lj) =
          expectedEntry extW vol111 idAffine none
            (Option.map (labelPoints vol111 idAffine) none) "o" "p" lj) :=
  ⟨⟨by decide, by decide,
      processVessel_error extW idAffine 1 (nameOf 1) (maskOf vol111 1) none none "o" "p" _
        (ccm_singleton_error extW (maskOf vol111 1) idAffine (nameOf 1) "o" "p"
          ((0 : ℤ), (0 : ℤ), (0 : ℤ)) (by decide) (by decide) (by decide) (by decide))⟩,
    C2_exception_discards_partial extW vol111 idAffine idAffine none "o" "p" 1
      "IndexError: index 1 is out of bounds" (by decide) (by decide)
      (processVessel_error extW idAffine 1 (nameOf 1) (maskOf vol111 1) none none "o" "p" _
        (ccm_singleton_error extW (maskOf vol111 1) idAffine (nameOf 1) "o" "p"
          ((0 : ℤ), (0 : ℤ), (0 : ℤ)) (by decide) (by decide) (by decide) (by decide)))⟩

theorem spacingVec_idLinear (t : RVec3) : spacingVec ⟨Mat3.id3, t⟩ = ⟨1, 1, 1⟩ := by
  refine RVec3.ext3 ?_ ?_ ?_ <;>
    (simp only [spacingVec, Mat3.id3]; norm_num [Real.sqrt_one])

/-- **C2 (counterexample).** The claim as stated — the entry is preserved
with its partial results — is false on the code: here label 1's mesh stage
has already produced vertices (the stored local-space mesh is nonempty),
the centerline stage then raises, and the final result holds **no** entry
for "Aorta" at all. -/
theorem C2_counterexample :
    storedMeshVertices extW idAffine (maskOf vol111 1) = [⟨-2, -2, -2⟩] ∧
    (processVessel extW idAffine 1 (nameOf 1) (maskOf vol111 1) none none "o" "p").2 =
      .error "IndexError: index 1 is out of bounds" ∧
    (enhanced_vessel_reconstruction_analysis extW vol111 idAffine idAffine none
        "o" "p").vessels.lookup (nameOf 1) = none := by
  have herr := ccm_singleton_error extW (maskOf vol111 1) idAffine (nameOf 1) "o" "p"
    ((0 : ℤ), (0 : ℤ), (0 : ℤ)) (by decide) (by decide) (by decide) (by decide)
  refine ⟨?_, processVessel_error extW idAffine 1 (nameOf 1) (maskOf vol111 1) none none
    "o" "p" _ herr, ?_⟩
  · unfold storedMeshVertices
    rw [show extW.marchingCubesVerts (maskOf vol111 1) = [⟨0, 0, 0⟩] from rfl,
      show spacingVec idAffine = ⟨1, 1, 1⟩ from spacingVec_idLinear ⟨0, 0, 0⟩]
    simp only [List.map_cons, List.map_nil]
    congr 1
    refine RVec3.ext3 ?_ ?_ ?_ <;> norm_num [RVec3.sub, RVec3.smul]
  · rw [analysis_lookup extW vol111 idAffine idAffine none "o" "p" 1 (Or.inl rfl),
      expectedEntry, if_neg (not_not_intro (by decide : (maskOf vol111 1).Nonempty)),
      processVessel_error extW idAffine 1 (nameOf 1) (maskOf vol111 1) none
        (Option.map (labelPoints vol111 idAffine) none) "o" "p" _ herr]
    rfl

/-! ### Claim C1: the stored mesh is never moved to world space -/

/-- An affine with identity rotation and translation `(10, 0, 0)`. -/
def transAffine : Affine4 := ⟨Mat3.id3, ⟨10, 0, 0⟩⟩

/-- Externals for the C1 evaluation: like `extW` but with a two-voxel
skeleton, so the centerline stage succeeds. -/
noncomputable def extC1 : ExtLib :=
  { extW with skeletonize := fun _ => maskTwo }

/-- **C1 (code bug).** With the affine's translation at `(10, 0, 0)`, the
mesh stored in the vessel record keeps the marching-cubes vertex minus the
padding offset — `(-2, -2, -2)` — whereas the world-space vertex the
specification describes (affine applied after the padding correction) is
`(8, -2, -2)`: lines 132–133 compute `verts_world` but line 135 builds the
mesh from `verts`, so the stored vertices differ from the spec's whenever
the affine translates or rotates. -/
theorem C1_stored_mesh_not_world_space :
    meshOfResult (processVessel extC1 transAffine 1 (nameOf 1) (maskOf vol111 1)
        none none "o" "p").2 =
      some ⟨[⟨-2, -2, -2⟩], extC1.marchingCubesFaces (maskOf vol111 1)⟩ ∧
    specMeshVerticesWorld extC1 transAffine (maskOf vol111 1) = [⟨8, -2, -2⟩] ∧
    storedMeshVertices extC1 transAffine (maskOf vol111 1) ≠
      specMeshVerticesWorld extC1 transAffine (maskOf vol111 1) := by
  have hsp : spacingVec transAffine = ⟨1, 1, 1⟩ := spacingVec_idLinear ⟨10, 0, 0⟩
  have hstored : storedMeshVertices extC1 transAffine (maskOf vol111 1) =
      [⟨-2, -2, -2⟩] := by
    unfold storedMeshVertices
    rw [show extC1.marchingCubesVerts (maskOf vol111 1) = [⟨0, 0, 0⟩] from rfl, hsp]
    simp only [List.map_cons, List.map_nil]
    congr 1
    refine RVec3.ext3 ?_ ?_ ?_ <;> norm_num [RVec3.sub, RVec3.smul]
  have hspec : specMeshVerticesWorld extC1 transAffine (maskOf vol111 1) =
      [⟨8, -2, -2⟩] := by
    unfold specMeshVerticesWorld
    rw [show extC1.marchingCubesVerts (maskOf vol111 1) = [⟨0, 0, 0⟩] from rfl, hsp]
    simp only [List.map_cons, List.map_nil]
    congr 1
    refine RVec3.ext3 ?_ ?_ ?_ <;>
      norm_num [RVec3.sub, RVec3.smul, RVec3.add, Affine4.apply, Mat3.mulVec,
        Mat3.id3, transAffine]
  obtain ⟨tt, _, hok⟩ := ccm_single_ok extC1 (maskOf vol111 1) transAffine (nameOf 1)
    "o" "p" maskTwo (by decide) (by decide) (by decide) rfl (by decide)
  refine ⟨?_, hspec, ?_⟩
  · rw [processVessel_ok_mesh extC1 transAffine 1 (nameOf 1) (maskOf vol111 1) "o" "p"
      _ hok, hstored]
  · rw [hstored, hspec]
    intro h
    have hx := congrArg (fun l => (l.headD ⟨0, 0, 0⟩ : RVec3).x) h
    norm_num at hx

/-! ### Claim C8: diameters come from the EDT of the original mask -/

/-- **C8.** For every mask with a non-empty skeleton (of at least two
voxels, so the computation returns), the diameter reported at each skeleton
voxel equals twice the Euclidean distance transform of the **original**
mask — the argument `mask` itself, before padding and before the
morphological opening — computed with per-axis voxel-spacing sampling and
evaluated at that skeleton voxel; the returned statistics are those of this
profile. -/
theorem C8_diameters_from_edt (ext : ExtLib) (mask : Mask) (A : Affine4)
    (name dest pid : String)
    (hm : mask.Nonempty) (hc : (cleanedMaskOf ext mask A).Nonempty)
    (hS : (skeletonOf ext mask A).Nonempty)
    (hcompne : ext.labelComponents (skeletonOf ext mask A) ≠ [])
    (hcard : 2 ≤ (skeletonOf ext mask A).card) :
    (∃ r : CenterlineResult,
      compute_centerline_metrics ext mask A name dest pid = .ok (some r) ∧
      r.metrics.diameters = npStats (diametersProfile ext mask A)) ∧
    (diametersProfile ext mask A).length = (skeletonVoxelsOf ext mask A).length ∧
    ∀ i, i < (skeletonVoxelsOf ext mask A).length →
      (diametersProfile ext mask A).getD i 0 =
        ext.edt mask (spacingVec A)
          ((skeletonVoxelsOf ext mask A).getD i ((0 : ℤ), (0 : ℤ), (0 : ℤ))) * 2 := by
  have hc2 : (cleanedMaskOf ext mask A).Nonempty := hc
  have hS2 : (ext.skeletonize (cleanedMaskOf ext mask A)).Nonempty := hS
  have hcomp2 : ext.labelComponents (ext.skeletonize (cleanedMaskOf ext mask A)) ≠ [] :=
    hcompne
  have hlenvox : (argwhere (ext.skeletonize (cleanedMaskOf ext mask A))).length =
      (skeletonOf ext mask A).card := argwhere_length _
  have hmm : 2 ≤ ((argwhere (ext.skeletonize (cleanedMaskOf ext mask A))).map
      (fun v => A.apply (voxToR v))).length := by
    rw [List.length_map, hlenvox]; exact hcard
  have hdi : ((argwhere (ext.skeletonize (cleanedMaskOf ext mask A))).map
      (fun v => ext.edt mask (spacingVec A) v * 2)).length =
      (skeletonOf ext mask A).card := by rw [List.length_map, hlenvox]
  have hdne : ((argwhere (ext.skeletonize (cleanedMaskOf ext mask A))).map
      (fun v => ext.edt mask (spacingVec A) v * 2)) ≠ [] := by
    intro h
    rw [h] at hdi
    simp only [List.length_nil] at hdi
    omega
  have hidx : npArgmaxR ((argwhere (ext.skeletonize (cleanedMaskOf ext mask A))).map
      (fun v => ext.edt mask (spacingVec A) v * 2)) <
      ((argwhere (ext.skeletonize (cleanedMaskOf ext mask A))).map
      (fun v => A.apply (voxToR v))).length := by
    have h1 := npArgmaxR_lt_length _ hdne
    rw [hdi] at h1
    rw [List.length_map, hlenvox]
    exact h1
  have htan := compute_tangent_isSome _ _ hmm hidx
  obtain ⟨t, ht⟩ := Option.isSome_iff_exists.mp htan
  refine ⟨?_, by simp [diametersProfile], ?_⟩
  · simp only [compute_centerline_metrics]
    rw [if_neg (not_not_intro hm)]
    rw [if_neg (not_not_intro hc2)]
    rw [if_neg (not_not_intro hS2)]
    rw [if_neg (show ¬((ext.labelComponents (ext.skeletonize
        (cleanedMaskOf ext mask A))).length = 0) from
      fun h => hcomp2 (List.length_eq_zero.mp h))]
    rw [if_neg (show ¬(((argwhere (ext.skeletonize (cleanedMaskOf ext mask A))).map
        (fun v => ext.edt mask (spacingVec A) v * 2)).length = 0) by
      rw [hdi]; omega)]
    rw [ht]
    dsimp only
    split
    · split
      · exact ⟨_, rfl, rfl⟩
      · exact ⟨_, rfl, rfl⟩
    · exact ⟨_, rfl, rfl⟩
  · intro i h
    unfold diametersProfile
    unfold skeletonVoxelsOf at h ⊢
    rw [List.getD_eq_getElem?_getD, List.getElem?_map, List.getElem?_eq_getElem h,
      List.getD_eq_getElem?_getD, List.getElem?_eq_getElem h]
    rfl

/-- Witness for C8 on the two-voxel mask. -/
theorem C8_witness :
    ((maskTwo : Mask).Nonempty ∧ (cleanedMaskOf extW maskTwo idAffine).Nonempty ∧
      (skeletonOf extW maskTwo idAffine).Nonempty ∧
      extW.labelComponents (skeletonOf extW maskTwo idAffine) ≠ [] ∧
      2 ≤ (skeletonOf extW maskTwo idAffine).card) ∧
    ((∃ r : CenterlineResult,
        compute_centerline_metrics extW maskTwo idAffine "V" "o" "p" = .ok (some r) ∧
        r.metrics.diameters = npStats (diametersProfile extW maskTwo idAffine)) ∧
      (diametersProfile extW maskTwo idAffine).length =
        (skeletonVoxelsOf extW maskTwo idAffine).length ∧
      ∀ i, i < (skeletonVoxelsOf extW maskTwo idAffine).length →
        (diametersProfile extW maskTwo idAffine).getD i 0 =
          extW.edt maskTwo (spacingVec idAffine)
            ((skeletonVoxelsOf extW maskTwo idAffine).getD i
              ((0 : ℤ), (0 : ℤ), (0 : ℤ))) * 2) :=
  ⟨⟨by decide, by decide, by decide, by decide, by decide⟩,
    C8_diameters_from_edt extW maskTwo idAffine "V" "o" "p"
      (by decide) (by decide) (by decide) (by decide) (by decide)⟩

/-! ### Two-node evaluations of the fragment-graph stage -/

theorem dist3_self (a : RVec3) : dist3 a a = 0 := by
  unfold dist3 RVec3.norm RVec3.sub
  dsimp only
  rw [show a.x - a.x = 0 by ring, show a.y - a.y = 0 by ring, show a.z - a.z = 0 by ring]
  norm_num

theorem dist3_comm (a b : RVec3) : dist3 a b = dist3 b a := by
  unfold dist3 RVec3.norm RVec3.sub
  dsimp only
  congr 1
  ring

theorem dist3_nonneg (a b : RVec3) : 0 ≤ dist3 a b := Real.sqrt_nonneg _

theorem dist3_pos_of_ne {a b : RVec3} (h : a ≠ b) : 0 < dist3 a b := by
  unfold dist3 RVec3.norm RVec3.sub
  dsimp only
  apply Real.sqrt_pos.mpr
  rcases lt_or_eq_of_le (by positivity :
      (0 : ℝ) ≤ (a.x - b.x) ^ 2 + (a.y - b.y) ^ 2 + (a.z - b.z) ^ 2) with hlt | heq
  · exact hlt
  · exfalso
    have hx : a.x - b.x = 0 := by
      nlinarith [sq_nonneg (a.x - b.x), sq_nonneg (a.y - b.y), sq_nonneg (a.z - b.z)]
    have hy : a.y - b.y = 0 := by
      nlinarith [sq_nonneg (a.x - b.x), sq_nonneg (a.y - b.y), sq_nonneg (a.z - b.z)]
    have hz : a.z - b.z = 0 := by
      nlinarith [sq_nonneg (a.x - b.x), sq_nonneg (a.y - b.y), sq_nonneg (a.z - b.z)]
    exact h (RVec3.ext3 (by linarith) (by linarith) (by linarith))

/-- On two nodes joined by a nonzero weight, the spanning forest is the
single edge `(0, 1)`. -/
theorem mst_two (w : ℕ → ℕ → ℝ) (hw : w 0 1 ≠ 0) :
    minimum_spanning_tree w 2 = [(0, 1)] := by
  show primForestAux w 1 [0] (List.range' 1 1) [] = [(0, 1)]
  rw [show List.range' 1 1 = [1] from rfl]
  rw [primForestAux]
  rw [show minCross w [0] [1] = some (0, 1) by
    unfold minCross
    simp [pickMinBy, hw]]
  rfl

/-- On two nodes with zero weight (an absent CSR edge), the spanning forest
is empty. -/
theorem mst_two_zero (w : ℕ → ℕ → ℝ) (hw : w 0 1 = 0) :
    minimum_spanning_tree w 2 = [] := by
  show primForestAux w 1 [0] (List.range' 1 1) [] = []
  rw [show List.range' 1 1 = [1] from rfl]
  rw [primForestAux]
  rw [show minCross w [0] [1] = none by
    unfold minCross
    simp [pickMinBy, hw]]
  rfl

theorem mstSum_single (w : ℕ → ℕ → ℝ) : mstSum w [(0, 1)] = w 0 1 := by
  simp [mstSum]

theorem mstSum_nil (w : ℕ → ℕ → ℝ) : mstSum w [] = 0 := by
  simp [mstSum]

/-- Shortest-path distances from node 0 over the single edge `(0, 1)`. -/
theorem dijkstra_two_src0 (w : ℕ → ℕ → ℝ) (hd0 : 0 ≤ w 0 1) :
    dijkstraDistances w [(0, 1)] 2 0 = [some 0, some (w 0 1)] := by
  unfold dijkstraDistances
  rw [show ((List.range 2).map (fun v => if v = 0 then some (0 : ℝ) else none)) =
      [some (0 : ℝ), none] from rfl]
  rw [show (2 : ℕ) = 1 + 1 from rfl, Function.iterate_add_apply,
    Function.iterate_one]
  rw [show relaxOnce w [(0, 1)] [some (0 : ℝ), none] = [some 0, some (0 + w 0 1)] by
    unfold relaxOnce
    rw [show ([some (0 : ℝ), none] : List DistVal).length = 2 from rfl]
    rw [show List.range 2 = [0, 1] from rfl]
    simp [relaxEdge, List.getD, omin, oadd]]
  rw [show relaxOnce w [(0, 1)] [some (0 : ℝ), some (0 + w 0 1)] =
      [some (min 0 (0 + w 0 1 + w 0 1)), some (min (0 + w 0 1) (0 + w 0 1))] by
    unfold relaxOnce
    rw [show ([some (0 : ℝ), some (0 + w 0 1)] : List DistVal).length = 2 from rfl]
    rw [show List.range 2 = [0, 1] from rfl]
    simp [relaxEdge, List.getD, omin, oadd]]
  rw [min_self, min_eq_left (by linarith), zero_add]

/-- Shortest-path distances from node 1 over the single edge `(0, 1)`. -/
theorem dijkstra_two_src1 (w : ℕ → ℕ → ℝ) (hd0 : 0 ≤ w 0 1) :
    dijkstraDistances w [(0, 1)] 2 1 = [some (w 0 1), some 0] := by
  unfold dijkstraDistances
  rw [show ((List.range 2).map (fun v => if v = 1 then some (0 : ℝ) else none)) =
      [none, some (0 : ℝ)] from rfl]
  rw [show (2 : ℕ) = 1 + 1 from rfl, Function.iterate_add_apply,
    Function.iterate_one]
  rw [show relaxOnce w [(0, 1)] [none, some (0 : ℝ)] = [some (0 + w 0 1), some 0] by
    unfold relaxOnce
    rw [show ([none, some (0 : ℝ)] : List DistVal).length = 2 from rfl]
    rw [show List.range 2 = [0, 1] from rfl]
    simp [relaxEdge, List.getD, omin, oadd]]
  rw [show relaxOnce w [(0, 1)] [some (0 + w 0 1), some (0 : ℝ)] =
      [some (min (0 + w 0 1) (0 + w 0 1)), some (min 0 (0 + w 0 1 + w 0 1))] by
    unfold relaxOnce
    rw [show ([some (0 + w 0 1), some (0 : ℝ)] : List DistVal).length = 2 from rfl]
    rw [show List.range 2 = [0, 1] from rfl]
    simp [relaxEdge, List.getD, omin, oadd]]
  rw [min_self, min_eq_left (by linarith), zero_add]

/-- With no edges, the distances never change: the source stays at 0, the
other node at infinity. -/
theorem dijkstra_none_src0 (w : ℕ → ℕ → ℝ) :
    dijkstraDistances w [] 2 0 = [some 0, none] := by
  unfold dijkstraDistances
  rw [show ((List.range 2).map (fun v => if v = 0 then some (0 : ℝ) else none)) =
      [some (0 : ℝ), none] from rfl]
  rw [show (2 : ℕ) = 1 + 1 from rfl, Function.iterate_add_apply,
    Function.iterate_one]
  rw [show relaxOnce w [] [some (0 : ℝ), none] = [some 0, none] by
    unfold relaxOnce
    rw [show ([some (0 : ℝ), none] : List DistVal).length = 2 from rfl]
    rw [show List.range 2 = [0, 1] from rfl]
    simp [List.getD]]
  rw [show relaxOnce w [] [some (0 : ℝ), none] = [some 0, none] by
    unfold relaxOnce
    rw [show ([some (0 : ℝ), none] : List DistVal).length = 2 from rfl]
    rw [show List.range 2 = [0, 1] from rfl]
    simp [List.getD]]

theorem dijkstra_none_src1 (w : ℕ → ℕ → ℝ) :
    dijkstraDistances w [] 2 1 = [none, some 0] := by
  unfold dijkstraDistances
  rw [show ((List.range 2).map (fun v => if v = 1 then some (0 : ℝ) else none)) =
      [none, some (0 : ℝ)] from rfl]
  rw [show (2 : ℕ) = 1 + 1 from rfl, Function.iterate_add_apply,
    Function.iterate_one]
  rw [show relaxOnce w [] [none, some (0 : ℝ)] = [none, some 0] by
    unfold relaxOnce
    rw [show ([none, some (0 : ℝ)] : List DistVal).length = 2 from rfl]
    rw [show List.range 2 = [0, 1] from rfl]
    simp [List.getD]]
  rw [show relaxOnce w [] [none, some (0 : ℝ)] = [none, some 0] by
    unfold relaxOnce
    rw [show ([none, some (0 : ℝ)] : List DistVal).length = 2 from rfl]
    rw [show List.range 2 = [0, 1] from rfl]
    simp [List.getD]]

theorem npArgmaxO_two_pos (x y : ℝ) (h : x < y) : npArgmaxO [some x, some y] = 1 := by
  simp [npArgmaxO, npArgmaxOAux, oLt, h]

theorem npArgmaxO_two_le (x y : ℝ) (h : y ≤ x) : npArgmaxO [some x, some y] = 0 := by
  simp [npArgmaxO, npArgmaxOAux, oLt, not_lt.mpr h]

theorem npArgmaxO_some_none (x : ℝ) : npArgmaxO [some x, none] = 1 := by
  simp [npArgmaxO, npArgmaxOAux, oLt]

theorem npArgmaxO_none_some (x : ℝ) : npArgmaxO [none, some x] = 0 := by
  simp [npArgmaxO, npArgmaxOAux, oLt]

theorem npMaxO_two (x y : ℝ) : npMaxO [some x, some y] = some (max x y) := by
  simp [npMaxO, omax2]

theorem npMaxO_none_some (x : ℝ) : npMaxO [none, some x] = none := by
  simp [npMaxO, omax2]

/-- Two significant fragments with distinct mm centroids: the spanning tree
is the single centroid edge, the double sweep traverses it, and length and
quality come out as the centroid distance and 1. -/
theorem ccm_two_fragments (ext : ExtLib) (mask : Mask) (A : Affine4)
    (name dest pid : String) (F1 F2 : Mask)
    (hm : mask.Nonempty) (hc : (cleanedMaskOf ext mask A).Nonempty)
    (hS : (skeletonOf ext mask A).Nonempty)
    (hcomp : ext.labelComponents (skeletonOf ext mask A) = [F1, F2])
    (h1 : 1 < F1.card) (h2 : 1 < F2.card)
    (hcard : 2 ≤ (skeletonOf ext mask A).card)
    (hd : mmCentroid A F1 ≠ mmCentroid A F2) :
    ∃ r : CenterlineResult,
      compute_centerline_metrics ext mask A name dest pid = .ok (some r) ∧
      r.metrics.len = PyVal.val (dist3 (mmCentroid A F1) (mmCentroid A F2)) ∧
      r.metrics.quality = PyVal.val 1 := by
  have hc2 : (cleanedMaskOf ext mask A).Nonempty := hc
  have hS2 : (ext.skeletonize (cleanedMaskOf ext mask A)).Nonempty := hS
  have hcomp2 : ext.labelComponents (ext.skeletonize (cleanedMaskOf ext mask A)) = [F1, F2] :=
    hcomp
  have hlenvox : (argwhere (ext.skeletonize (cleanedMaskOf ext mask A))).length =
      (skeletonOf ext mask A).card := argwhere_length _
  have hmm : 2 ≤ ((argwhere (ext.skeletonize (cleanedMaskOf ext mask A))).map
      (fun v => A.apply (voxToR v))).length := by
    rw [List.length_map, hlenvox]; exact hcard
  have hdi : ((argwhere (ext.skeletonize (cleanedMaskOf ext mask A))).map
      (fun v => ext.edt mask (spacingVec A) v * 2)).length =
      (skeletonOf ext mask A).card := by rw [List.length_map, hlenvox]
  have hdne : ((argwhere (ext.skeletonize (cleanedMaskOf ext mask A))).map
      (fun v => ext.edt mask (spacingVec A) v * 2)) ≠ [] := by
    intro h
    rw [h] at hdi
    simp only [List.length_nil] at hdi
    omega
  have hidx : npArgmaxR ((argwhere (ext.skeletonize (cleanedMaskOf ext mask A))).map
      (fun v => ext.edt mask (spacingVec A) v * 2)) <
      ((argwhere (ext.skeletonize (cleanedMaskOf ext mask A))).map
      (fun v => A.apply (voxToR v))).length := by
    have hlt := npArgmaxR_lt_length _ hdne
    rw [hdi] at hlt
    rw [List.length_map, hlenvox]
    exact hlt
  have htan := compute_tangent_isSome _ _ hmm hidx
  obtain ⟨t, ht⟩ := Option.isSome_iff_exists.mp htan
  have hfil : List.filter (fun F => decide (1 < Finset.card F)) [F1, F2] = [F1, F2] := by
    rw [List.filter_eq_self]
    intro a ha
    rcases List.mem_cons.mp ha with rfl | ha2
    · exact decide_eq_true h1
    · rcases List.mem_singleton.mp ha2 with rfl
      exact decide_eq_true h2
  have hdpos : 0 < cdistW (List.map (mmCentroid A) [F1, F2]) 0 1 := dist3_pos_of_ne hd
  have hlen2 : (List.map (mmCentroid A) [F1, F2]).length = 2 := rfl
  simp only [compute_centerline_metrics]
  rw [if_neg (not_not_intro hm)]
  rw [if_neg (not_not_intro hc2)]
  rw [if_neg (not_not_intro hS2)]
  rw [hcomp2]
  rw [if_neg (show ¬(([F1, F2] : List Mask).length = 0) by simp)]
  rw [if_neg (show ¬(((argwhere (ext.skeletonize (cleanedMaskOf ext mask A))).map
      (fun v => ext.edt mask (spacingVec A) v * 2)).length = 0) by
    rw [hdi]; omega)]
  rw [ht]
  dsimp only
  rw [if_pos (show 1 < ([F1, F2] : List Mask).length by simp)]
  rw [hfil]
  rw [if_pos (show 1 < ([F1, F2] : List Mask).length by simp)]
  rw [hlen2]
  rw [mst_two _ (ne_of_gt hdpos)]
  rw [mstSum_single]
  rw [dijkstra_two_src0 _ (le_of_lt hdpos)]
  rw [npArgmaxO_two_pos _ _ hdpos]
  rw [dijkstra_two_src1 _ (le_of_lt hdpos)]
  rw [npMaxO_two]
  rw [max_eq_left (le_of_lt hdpos)]
  rw [npArgmaxO_two_le _ _ (le_of_lt hdpos)]
  rw [show (List.map (mmCentroid A) [F1, F2]).getD 1 ⟨0, 0, 0⟩ = mmCentroid A F2 from rfl]
  rw [show (List.map (mmCentroid A) [F1, F2]).getD 0 ⟨0, 0, 0⟩ = mmCentroid A F1 from rfl]
  rw [dist3_comm (mmCentroid A F2) (mmCentroid A F1)]
  rw [if_pos (dist3_pos_of_ne hd)]
  rw [if_pos hdpos]
  dsimp only
  rw [div_self (ne_of_gt hdpos)]
  exact ⟨_, rfl, rfl, rfl⟩

/-- Two significant fragments whose mm centroids coincide: the 2×2 distance
matrix is all zeros, CSR drops the zero entries, the spanning tree is
empty, the far node is unreachable — the path length becomes `inf` and the
quality guard (`total_mst_length > 0`) fails, leaving quality `nan`. -/
theorem ccm_two_fragments_zero (ext : ExtLib) (mask : Mask) (A : Affine4)
    (name dest pid : String) (F1 F2 : Mask)
    (hm : mask.Nonempty) (hc : (cleanedMaskOf ext mask A).Nonempty)
    (hS : (skeletonOf ext mask A).Nonempty)
    (hcomp : ext.labelComponents (skeletonOf ext mask A) = [F1, F2])
    (h1 : 1 < F1.card) (h2 : 1 < F2.card)
    (hcard : 2 ≤ (skeletonOf ext mask A).card)
    (hdz : mmCentroid A F1 = mmCentroid A F2) :
    ∃ r : CenterlineResult,
      compute_centerline_metrics ext mask A name dest pid = .ok (some r) ∧
      r.metrics.len = PyVal.inf ∧
      r.metrics.quality = PyVal.nan ∧
      r.metrics.tortuosity = PyVal.nan := by
  have hc2 : (cleanedMaskOf ext mask A).Nonempty := hc
  have hS2 : (ext.skeletonize (cleanedMaskOf ext mask A)).Nonempty := hS
  have hcomp2 : ext.labelComponents (ext.skeletonize (cleanedMaskOf ext mask A)) = [F1, F2] :=
    hcomp
  have hlenvox : (argwhere (ext.skeletonize (cleanedMaskOf ext mask A))).length =
      (skeletonOf ext mask A).card := argwhere_length _
  have hmm : 2 ≤ ((argwhere (ext.skeletonize (cleanedMaskOf ext mask A))).map
      (fun v => A.apply (voxToR v))).length := by
    rw [List.length_map, hlenvox]; exact hcard
  have hdi : ((argwhere (ext.skeletonize (cleanedMaskOf ext mask A))).map
      (fun v => ext.edt mask (spacingVec A) v * 2)).length =
      (skeletonOf ext mask A).card := by rw [List.length_map, hlenvox]
  have hdne : ((argwhere (ext.skeletonize (cleanedMaskOf ext mask A))).map
      (fun v => ext.edt mask (spacingVec A) v * 2)) ≠ [] := by
    intro h
    rw [h] at hdi
    simp only [List.length_nil] at hdi
    omega
  have hidx : npArgmaxR ((argwhere (ext.skeletonize (cleanedMaskOf ext mask A))).map
      (fun v => ext.edt mask (spacingVec A) v * 2)) <
      ((argwhere (ext.skeletonize (cleanedMaskOf ext mask A))).map
      (fun v => A.apply (voxToR v))).length := by
    have hlt := npArgmaxR_lt_length _ hdne
    rw [hdi] at hlt
    rw [List.length_map, hlenvox]
    exact hlt
  have htan := compute_tangent_isSome _ _ hmm hidx
  obtain ⟨t, ht⟩ := Option.isSome_iff_exists.mp htan
  have hfil : List.filter (fun F => decide (1 < Finset.card F)) [F1, F2] = [F1, F2] := by
    rw [List.filter_eq_self]
    intro a ha
    rcases List.mem_cons.mp ha with rfl | ha2
    · exact decide_eq_true h1
    · rcases List.mem_singleton.mp ha2 with rfl
      exact decide_eq_true h2
  have hdz0 : cdistW (List.map (mmCentroid A) [F1, F2]) 0 1 = 0 := by
    show dist3 (mmCentroid A F1) (mmCentroid A F2) = 0
    rw [hdz, dist3_self]
  have hlen2 : (List.map (mmCentroid A) [F1, F2]).length = 2 := rfl
  simp only [compute_centerline_metrics]
  rw [if_neg (not_not_intro hm)]
  rw [if_neg (not_not_intro hc2)]
  rw [if_neg (not_not_intro hS2)]
  rw [hcomp2]
  rw [if_neg (show ¬(([F1, F2] : List Mask).length = 0) by simp)]
  rw [if_neg (show ¬(((argwhere (ext.skeletonize (cleanedMaskOf ext mask A))).map
      (fun v => ext.edt mask (spacingVec A) v * 2)).length = 0) by
    rw [hdi]; omega)]
  rw [ht]
  dsimp only
  rw [if_pos (show 1 < ([F1, F2] : List Mask).length by simp)]
  rw [hfil]
  rw [if_pos (show 1 < ([F1, F2] : List Mask).length by simp)]
  rw [hlen2]
  rw [mst_two_zero _ hdz0]
  rw [mstSum_nil]
  rw [dijkstra_none_src0]
  rw [npArgmaxO_some_none]
  rw [dijkstra_none_src1]
  rw [npMaxO_none_some]
  rw [npArgmaxO_none_some]
  rw [show (List.map (mmCentroid A) [F1, F2]).getD 1 ⟨0, 0, 0⟩ = mmCentroid A F2 from rfl]
  rw [show (List.map (mmCentroid A) [F1, F2]).getD 0 ⟨0, 0, 0⟩ = mmCentroid A F1 from rfl]
  rw [show dist3 (mmCentroid A F2) (mmCentroid A F1) = 0 by
    rw [dist3_comm, hdz, dist3_self]]
  rw [if_neg (lt_irrefl (0 : ℝ))]
  exact ⟨_, rfl, rfl, rfl, rfl⟩

/-- Evaluate a fragment centroid from its integer coordinate sums. -/
theorem centroid_eval (F : Mask) (sx sy sz : ℤ) (n : ℕ)
    (hx : F.sum (fun v => v.1) = sx) (hy : F.sum (fun v => v.2.1) = sy)
    (hz : F.sum (fun v => v.2.2) = sz) (hn : F.card = n) :
    centroidVox F = ⟨(sx : ℝ) / (n : ℝ), (sy : ℝ) / (n : ℝ), (sz : ℝ) / (n : ℝ)⟩ := by
  unfold centroidVox
  refine RVec3.ext3 ?_ ?_ ?_ <;> dsimp only
  · rw [← Int.cast_sum, hx, hn]
  · rw [← Int.cast_sum, hy, hn]
  · rw [← Int.cast_sum, hz, hn]

/-! ### Claim C5: the two-fragment path length and quality score -/

/-- **C5 (amended).** For every mask whose skeleton consists of exactly two
connected fragments, each larger than one voxel, **whose world-mm centroids
are distinct**, the computed centerline path length equals the Euclidean
distance (in world mm) between the two fragment centroids — the single-edge
spanning tree — and the quality score (path length divided by total
spanning-tree length) equals 1.0. -/
theorem C5_two_fragment_path_and_quality (ext : ExtLib) (mask : Mask) (A : Affine4)
    (name dest pid : String) (F1 F2 : Mask)
    (hm : mask.Nonempty) (hc : (cleanedMaskOf ext mask A).Nonempty)
    (hS : (skeletonOf ext mask A).Nonempty)
    (hcomp : ext.labelComponents (skeletonOf ext mask A) = [F1, F2])
    (h1 : 1 < F1.card) (h2 : 1 < F2.card)
    (hcard : 2 ≤ (skeletonOf ext mask A).card)
    (hd : mmCentroid A F1 ≠ mmCentroid A F2) :
    ∃ r : CenterlineResult,
      compute_centerline_metrics ext mask A name dest pid = .ok (some r) ∧
      r.metrics.len = PyVal.val (dist3 (mmCentroid A F1) (mmCentroid A F2)) ∧
      r.metrics.quality = PyVal.val 1 :=
  ccm_two_fragments ext mask A name dest pid F1 F2 hm hc hS hcomp h1 h2 hcard hd

/-- First witness fragment: two voxels near the origin. -/
def fragA : Mask := {((0 : ℤ), (0 : ℤ), (0 : ℤ)), ((1 : ℤ), (0 : ℤ), (0 : ℤ))}

/-- Second witness fragment: two voxels further along the x axis. -/
def fragB : Mask := {((5 : ℤ), (0 : ℤ), (0 : ℤ)), ((6 : ℤ), (0 : ℤ), (0 : ℤ))}

/-- The union mask for the C5 witness. -/
def maskAB : Mask := fragA ∪ fragB

/-- Externals whose labelling reports the two witness fragments (they are
exactly the 6-connected components of `maskAB`). -/
noncomputable def extAB : ExtLib :=
  { extW with labelComponents := fun _ => [fragA, fragB] }

theorem centroid_fragA : mmCentroid idAffine fragA = ⟨(1 : ℝ) / 2, 0, 0⟩ := by
  unfold mmCentroid
  rw [idAffine_apply,
    centroid_eval fragA 1 0 0 2 (by decide) (by decide) (by decide) (by decide)]
  refine RVec3.ext3 ?_ ?_ ?_ <;> norm_num

theorem centroid_fragB : mmCentroid idAffine fragB = ⟨(11 : ℝ) / 2, 0, 0⟩ := by
  unfold mmCentroid
  rw [idAffine_apply,
    centroid_eval fragB 11 0 0 2 (by decide) (by decide) (by decide) (by decide)]
  refine RVec3.ext3 ?_ ?_ ?_ <;> norm_num

/-- Witness for the amended C5: two two-voxel fragments at distinct
centroids. -/
theorem C5_witness :
    ((maskAB : Mask).Nonempty ∧ (cleanedMaskOf extAB maskAB idAffine).Nonempty ∧
      (skeletonOf extAB maskAB idAffine).Nonempty ∧
      extAB.labelComponents (skeletonOf extAB maskAB idAffine) = [fragA, fragB] ∧
      1 < fragA.card ∧ 1 < fragB.card ∧
      2 ≤ (skeletonOf extAB maskAB idAffine).card ∧
      mmCentroid idAffine fragA ≠ mmCentroid idAffine fragB) ∧
    (∃ r : CenterlineResult,
      compute_centerline_metrics extAB maskAB idAffine "V" "o" "p" = .ok (some r) ∧
      r.metrics.len =
        PyVal.val (dist3 (mmCentroid idAffine fragA) (mmCentroid idAffine fragB)) ∧
      r.metrics.quality = PyVal.val 1) := by
  have hne : mmCentroid idAffine fragA ≠ mmCentroid idAffine fragB := by
    rw [centroid_fragA, centroid_fragB]
    intro h
    have hx := congrArg RVec3.x h
    norm_num at hx
  exact ⟨⟨by decide, by decide, by decide, rfl, by decide, by decide, by decide, hne⟩,
    C5_two_fragment_path_and_quality extAB maskAB idAffine "V" "o" "p" fragA fragB
      (by decide) (by decide) (by decide) rfl (by decide) (by decide) (by decide) hne⟩

/-- A three-voxel line along the x axis; its centroid is `(1, 0, 0)`. -/
def fragLine : Mask :=
  {((0 : ℤ), (0 : ℤ), (0 : ℤ)), ((1 : ℤ), (0 : ℤ), (0 : ℤ)), ((2 : ℤ), (0 : ℤ), (0 : ℤ))}

/-- A sixteen-voxel square ring in the plane `x = 1` of radius 2 around
`(1, 0, 0)`; its centroid is also `(1, 0, 0)`.  It is 6-connected, disjoint
from `fragLine`, and no voxel of one is 6-adjacent to a voxel of the other
(every ring voxel has `max(|y|,|z|) = 2`), so `fragLine` and `fragRing` are
exactly the two connected components of their union. -/
def fragRing : Mask :=
  {((1 : ℤ), (-2 : ℤ), (-2 : ℤ)), ((1 : ℤ), (-2 : ℤ), (-1 : ℤ)),
   ((1 : ℤ), (-2 : ℤ), (0 : ℤ)), ((1 : ℤ), (-2 : ℤ), (1 : ℤ)),
   ((1 : ℤ), (-2 : ℤ), (2 : ℤ)),
   ((1 : ℤ), (2 : ℤ), (-2 : ℤ)), ((1 : ℤ), (2 : ℤ), (-1 : ℤ)),
   ((1 : ℤ), (2 : ℤ), (0 : ℤ)), ((1 : ℤ), (2 : ℤ), (1 : ℤ)),
   ((1 : ℤ), (2 : ℤ), (2 : ℤ)),
   ((1 : ℤ), (-1 : ℤ), (-2 : ℤ)), ((1 : ℤ), (0 : ℤ), (-2 : ℤ)),
   ((1 : ℤ), (1 : ℤ), (-2 : ℤ)),
   ((1 : ℤ), (-1 : ℤ), (2 : ℤ)), ((1 : ℤ), (0 : ℤ), (2 : ℤ)),
   ((1 : ℤ), (1 : ℤ), (2 : ℤ))}

/-- The two-fragment counterexample mask. -/
def maskLR : Mask := fragLine ∪ fragRing

/-- Externals whose labelling reports the line and the ring (they are the
6-connected components of `maskLR`). -/
noncomputable def extLR : ExtLib :=
  { extW with labelComponents := fun _ => [fragLine, fragRing] }

theorem centroid_fragLine : mmCentroid idAffine fragLine = ⟨1, 0, 0⟩ := by
  unfold mmCentroid
  rw [idAffine_apply,
    centroid_eval fragLine 3 0 0 3 (by decide) (by decide) (by decide) (by decide)]
  refine RVec3.ext3 ?_ ?_ ?_ <;> norm_num

theorem centroid_fragRing : mmCentroid idAffine fragRing = ⟨1, 0, 0⟩ := by
  unfold mmCentroid
  rw [idAffine_apply,
    centroid_eval fragRing 16 0 0 16 (by decide) (by decide) (by decide) (by decide)]
  refine RVec3.ext3 ?_ ?_ ?_ <;> norm_num

/-- **C5 (counterexample).** A skeleton made of exactly two fragments, each
larger than one voxel, whose centroids coincide: the claim's hypotheses
hold, yet the quality score is `nan` (not 1.0) and the reported path length
is `inf` (not the centroid distance 0) — the all-zero distance matrix
becomes an edgeless CSR graph. -/
theorem C5_counterexample :
    extLR.labelComponents (skeletonOf extLR maskLR idAffine) = [fragLine, fragRing] ∧
    1 < fragLine.card ∧ 1 < fragRing.card ∧
    mmCentroid idAffine fragLine = mmCentroid idAffine fragRing ∧
    ¬ (∃ r : CenterlineResult,
        compute_centerline_metrics extLR maskLR idAffine "V" "o" "p" = .ok (some r) ∧
        r.metrics.len =
          PyVal.val (dist3 (mmCentroid idAffine fragLine) (mmCentroid idAffine fragRing)) ∧
        r.metrics.quality = PyVal.val 1) := by
  have hcent : mmCentroid idAffine fragLine = mmCentroid idAffine fragRing := by
    rw [centroid_fragLine, centroid_fragRing]
  obtain ⟨r0, hok, hlen0, hq0, _⟩ := ccm_two_fragments_zero extLR maskLR idAffine
    "V" "o" "p" fragLine fragRing (by decide) (by decide) (by decide) rfl
    (by decide) (by decide) (by decide) hcent
  refine ⟨rfl, by decide, by decide, hcent, ?_⟩
  rintro ⟨r, hok2, hlen2, hq2⟩
  rw [hok] at hok2
  simp only [Except.ok.injEq, Option.some.injEq] at hok2
  rw [← hok2] at hq2
  rw [hq0] at hq2
  exact PyVal.noConfusion hq2
